import Mathlib

/-!
Verification of the query-processing pipeline of the internal-AI-advisory-assistant
repository: a shallow embedding, in Lean 4, of the role-based security filter
(`app/core/security.py`), the hybrid retriever with Reciprocal Rank Fusion
(`app/retrieval/hybrid.py`), the BM25 result assembly (`app/retrieval/bm25.py`),
the response-parsing degradation ladder (`app/workflows/orchestrator.py`),
the rule-based intent detector (`app/workflows/intent.py`), and the text
chunker (`app/ingestion/chunker.py`), together with theorems settling the
spec's claims about them.

Python floats are modelled as exact rationals (ℚ); the float values in play
(pattern weights, RRF weights and their small sums) are small decimal
fractions whose comparisons agree with the rational ones.  External
collaborators (json parser, pydantic validation, the embedding provider, the
BM25 scoring library, the LLM) appear as explicit function parameters, so a
theorem quantifying over them covers every behaviour of the collaborator.
-/

/-! ## Python string primitives

Python `str` operations used by the embedded code, modelled on `List Char`.
Whitespace is the ASCII whitespace set recognised by Python's `str.strip`,
`\s`, and friends (space, tab, newline, carriage return, form feed,
vertical tab); the repository's inputs in the claims are ASCII.
-/

def pyIsSpace (c : Char) : Bool :=
  c = ' ' || c = '\t' || c = '\n' || c = '\x0d' || c = '\x0b' || c = '\x0c'

/-- Python `str.lower`, ASCII range (the role strings and document types in
play are ASCII). -/
def pyLowerChar (c : Char) : Char :=
  if 'A' ≤ c ∧ c ≤ 'Z' then Char.ofNat (c.toNat + 32) else c

def pyLower (s : String) : String := String.mk (s.data.map pyLowerChar)

/-- Python `str.lstrip` on a character list. -/
def pyLStripL (l : List Char) : List Char := l.dropWhile pyIsSpace

/-- Python `str.rstrip` on a character list. -/
def pyRStripL (l : List Char) : List Char := (l.reverse.dropWhile pyIsSpace).reverse

/-- Python `str.strip` on a character list. -/
def pyStripL (l : List Char) : List Char := pyRStripL (pyLStripL l)

def pyStrip (s : String) : String := String.mk (pyStripL s.data)

/-! ## app/core/security.py -/

inductive UserRole where
  | analyst
  | consultant
  | partner
  deriving DecidableEq, Repr

/-- `UserRole.access_level`. -/
def UserRole.access_level : UserRole → Nat
  | .analyst => 1
  | .consultant => 2
  | .partner => 3

/-- `UserRole.can_access`. -/
def UserRole.can_access (r required : UserRole) : Bool :=
  required.access_level ≤ r.access_level

/-- `UserRole.from_string`: lower-case the string, look it up among the enum
values, and fall back to `ANALYST` (the most restrictive role) when the
lookup raises `ValueError`. -/
def UserRole.from_string (s : String) : UserRole :=
  let l := pyLower s
  if l = "analyst" then .analyst
  else if l = "consultant" then .consultant
  else if l = "partner" then .partner
  else .analyst

/-- `DOCUMENT_ACCESS_LEVELS`, in source order. -/
def DOCUMENT_ACCESS_LEVELS : List (String × UserRole) :=
  [ ("playbook", .analyst),
    ("guideline", .analyst),
    ("template", .analyst),
    ("training", .analyst),
    ("client_summary", .consultant),
    ("engagement", .consultant),
    ("proposal", .consultant),
    ("partner_memo", .partner),
    ("fee_structure", .partner),
    ("strategic_plan", .partner),
    ("confidential", .partner) ]

/-- `get_document_access_level`: dict `.get` with default `ANALYST`. -/
def get_document_access_level (document_type : String) : UserRole :=
  (DOCUMENT_ACCESS_LEVELS.lookup (pyLower document_type)).getD .analyst

/-- `get_accessible_document_types`: the document types whose required role
the user's role can access, in table order. -/
def get_accessible_document_types (user_role : UserRole) : List String :=
  (DOCUMENT_ACCESS_LEVELS.filter (fun p => user_role.can_access p.2)).map (·.1)

/-- `get_role_filter` just delegates. -/
def get_role_filter (user_role : UserRole) : List String :=
  get_accessible_document_types user_role

/-- C10: for every role string whose lower-casing is none of "analyst",
"consultant", "partner", `UserRole.from_string` does not raise (it is a total
function) and returns the most restrictive role `ANALYST`, so an unrecognized
`X-User-Role` header yields analyst-level access. -/
theorem C10_unknown_role_defaults_to_analyst (s : String)
    (h : pyLower s ≠ "analyst" ∧ pyLower s ≠ "consultant" ∧ pyLower s ≠ "partner") :
    UserRole.from_string s = UserRole.analyst := by
  unfold UserRole.from_string
  simp only [if_neg h.1, if_neg h.2.1, if_neg h.2.2]

/-- Witness for C10 at the concrete header value "SuperAdmin". -/
theorem C10_witness :
    (pyLower "SuperAdmin" ≠ "analyst" ∧ pyLower "SuperAdmin" ≠ "consultant" ∧
      pyLower "SuperAdmin" ≠ "partner") ∧
    UserRole.from_string "SuperAdmin" = UserRole.analyst :=
  ⟨by decide, C10_unknown_role_defaults_to_analyst "SuperAdmin" (by decide)⟩

/-! ## Generic helpers: Python dict (insertion-ordered association list) and
Python's stable `sorted`.

A Python dict preserves insertion order; assigning to an existing key updates
the value in place.  Python's `sorted` is stable; a stable sort by a key in
descending order produces the unique permutation that is sorted by the strict
total order "key descending, then original position ascending", which is how
it is modelled here (elements are annotated with their original position
before sorting by an insertion sort).
-/

def dictSet (l : List (String × α)) (k : String) (v : α) : List (String × α) :=
  match l with
  | [] => [(k, v)]
  | (k', v') :: rest => if k' = k then (k, v) :: rest else (k', v') :: dictSet rest k v

def ins (r : α → α → Bool) (x : α) : List α → List α
  | [] => [x]
  | y :: ys => if r x y then x :: y :: ys else y :: ins r x ys

def isort (r : α → α → Bool) : List α → List α
  | [] => []
  | x :: xs => ins r x (isort r xs)

/-! ## app/models/documents.py -/

/-- `RetrievedDocument` (pydantic model).  `score` is an exact rational in
place of the Python float. -/
structure RetrievedDocument where
  chunk_id : String
  document_id : String
  content : String
  score : ℚ
  rank : Nat
  filename : String
  document_type : String
  title : Option String := none
  section_title : Option String := none
  chunk_index : Nat := 0
  client_name : Option String := none
  practice_area : Option String := none
  tags : List String := []
  deriving DecidableEq, Repr

/-! ## app/retrieval/hybrid.py -/

structure HybridSearchConfig where
  dense_weight : ℚ := 7/10
  sparse_weight : ℚ := 3/10
  rrf_k : Nat := 60
  use_dense : Bool := true
  use_sparse : Bool := true
  deriving Repr

/-- The `allowed_types` computation at the top of `HybridRetriever.retrieve`:
the role's accessible set, narrowed by the caller's explicit document-type
filter when one was supplied.  `none` models Python `None`; note that an
explicit empty list is falsy in Python (`if document_types:`), so it behaves
like no filter at all. -/
def allowed_types (user_role : UserRole) (document_types : Option (List String)) : List String :=
  let accessible_types := get_role_filter user_role
  match document_types with
  | some l =>
      if l.isEmpty then accessible_types
      else l.filter (fun t => accessible_types.contains t)
  | none => accessible_types

/-- One entry of the `scores` dict in `_reciprocal_rank_fusion`, annotated
with its insertion position for the stable sort. -/
structure RRFEntry where
  idx : Nat
  key : String
  score : ℚ
  doc : RetrievedDocument

/-- The dense loop of `_reciprocal_rank_fusion`: `scores[doc.chunk_id] =
(dense_weight / (k + doc.rank), doc)`. -/
def rrfDense (cfg : HybridSearchConfig) (dense_results : List RetrievedDocument) :
    List (String × (ℚ × RetrievedDocument)) :=
  dense_results.foldl
    (fun scores doc =>
      dictSet scores doc.chunk_id (cfg.dense_weight / ((cfg.rrf_k : ℚ) + (doc.rank : ℚ)), doc))
    []

/-- The sparse loop of `_reciprocal_rank_fusion`: combine with an existing
entry's score (keeping the existing document object) or insert fresh. -/
def rrfSparse (cfg : HybridSearchConfig) (scores₀ : List (String × (ℚ × RetrievedDocument)))
    (sparse_results : List RetrievedDocument) : List (String × (ℚ × RetrievedDocument)) :=
  sparse_results.foldl
    (fun scores doc =>
      let rrf_score := cfg.sparse_weight / ((cfg.rrf_k : ℚ) + (doc.rank : ℚ))
      match scores.lookup doc.chunk_id with
      | some (existing_score, existing_doc) =>
          dictSet scores doc.chunk_id (existing_score + rrf_score, existing_doc)
      | none => dictSet scores doc.chunk_id (rrf_score, doc))
    scores₀

/-- `sorted(scores.items(), key=lambda x: x[1][0], reverse=True)` is a stable
descending sort on the summed score: model its strict total order. -/
def entry_before (a b : RRFEntry) : Bool :=
  decide (b.score < a.score) || (decide (a.score = b.score) && decide (a.idx ≤ b.idx))

/-- The fully built `scores` dict of `_reciprocal_rank_fusion`. -/
def rrfScores (cfg : HybridSearchConfig)
    (dense_results sparse_results : List RetrievedDocument) :
    List (String × (ℚ × RetrievedDocument)) :=
  rrfSparse cfg (rrfDense cfg dense_results) sparse_results

/-- `scores.items()` annotated with insertion positions, ready for the
stable sort. -/
def rrfEntries (cfg : HybridSearchConfig)
    (dense_results sparse_results : List RetrievedDocument) : List RRFEntry :=
  (rrfScores cfg dense_results sparse_results).enum.map
    (fun p => RRFEntry.mk p.1 p.2.1 p.2.2.1 p.2.2.2)

/-- The `sorted_items` list of `_reciprocal_rank_fusion`. -/
def rrfSorted (cfg : HybridSearchConfig)
    (dense_results sparse_results : List RetrievedDocument) : List RRFEntry :=
  isort entry_before (rrfEntries cfg dense_results sparse_results)

/-- `HybridRetriever._reciprocal_rank_fusion`: build the combined score dict,
sort it descending by summed score (stably), then rebuild documents with
dense 0-based ranks and the normalized score `min(score * 10, 1.0)`. -/
def reciprocal_rank_fusion (cfg : HybridSearchConfig)
    (dense_results sparse_results : List RetrievedDocument) : List RetrievedDocument :=
  (rrfSorted cfg dense_results sparse_results).enum.map (fun p =>
    { p.2.doc with score := min (p.2.score * 10) 1, rank := p.1 })

/-- The tail of `HybridRetriever.retrieve` after the two sources have been
consulted.  Each source's outcome is an explicit parameter: `Except.error`
models the source throwing; both `try` blocks leave the default empty list in
place on failure, so the function is total — retrieve never raises for a
source outage. -/
def retrieveResults (cfg : HybridSearchConfig) (top_k : Nat)
    (denseOutcome sparseOutcome : Except Unit (List RetrievedDocument)) :
    List RetrievedDocument :=
  let dense_results :=
    if cfg.use_dense then (match denseOutcome with | .ok l => l | .error _ => []) else []
  let sparse_results :=
    if cfg.use_sparse then (match sparseOutcome with | .ok l => l | .error _ => []) else []
  if dense_results.isEmpty && sparse_results.isEmpty then []
  else if dense_results.isEmpty then sparse_results.take top_k
  else if sparse_results.isEmpty then dense_results.take top_k
  else (reciprocal_rank_fusion cfg dense_results sparse_results).take top_k

/-- Modelled from the spec (refinement side of C3): "each item's score
contribution from a source is `weight / (k + rank_in_that_source)`;
contributions from multiple sources for the same chunk are summed".  The rank
in a source is the `rank` field carried by that source's result for the
chunk. -/
def specFusedScore (cfg : HybridSearchConfig)
    (dense_results sparse_results : List RetrievedDocument) (c : String) : ℚ :=
  (match (dense_results.find? (fun d => d.chunk_id = c)).map (·.rank) with
   | some r => cfg.dense_weight / ((cfg.rrf_k : ℚ) + (r : ℚ))
   | none => 0) +
  (match (sparse_results.find? (fun d => d.chunk_id = c)).map (·.rank) with
   | some r => cfg.sparse_weight / ((cfg.rrf_k : ℚ) + (r : ℚ))
   | none => 0)

/-! ### Helper lemmas about the stable sort and the dict model -/

theorem ins_perm (r : α → α → Bool) (x : α) (l : List α) :
    (ins r x l).Perm (x :: l) := by
  induction l with
  | nil => simp [ins]
  | cons y ys ih =>
    simp only [ins]
    split
    · exact List.Perm.refl _
    · exact (ih.cons y).trans (List.Perm.swap x y ys)

theorem isort_perm (r : α → α → Bool) (l : List α) : (isort r l).Perm l := by
  induction l with
  | nil => simp [isort]
  | cons x xs ih => exact (ins_perm r x (isort r xs)).trans (ih.cons x)

theorem ins_pairwise (r : α → α → Bool)
    (htot : ∀ a b, r a b = true ∨ r b a = true)
    (htrans : ∀ a b c, r a b = true → r b c = true → r a c = true)
    (x : α) (l : List α) (h : l.Pairwise (fun a b => r a b = true)) :
    (ins r x l).Pairwise (fun a b => r a b = true) := by
  induction l with
  | nil => simp [ins]
  | cons y ys ih =>
    rw [List.pairwise_cons] at h
    obtain ⟨hy, hys⟩ := h
    simp only [ins]
    by_cases hr : r x y = true
    · rw [if_pos hr]
      refine List.Pairwise.cons ?_ (List.Pairwise.cons hy hys)
      intro b hb
      rcases List.mem_cons.mp hb with rfl | hb
      · exact hr
      · exact htrans _ _ _ hr (hy b hb)
    · rw [if_neg hr]
      refine List.Pairwise.cons ?_ (ih hys)
      intro b hb
      have hb' : b ∈ x :: ys := (ins_perm r x ys).mem_iff.mp hb
      rcases List.mem_cons.mp hb' with rfl | hb''
      · rcases htot b y with h1 | h1
        · exact absurd h1 hr
        · exact h1
      · exact hy b hb''

theorem isort_pairwise (r : α → α → Bool)
    (htot : ∀ a b, r a b = true ∨ r b a = true)
    (htrans : ∀ a b c, r a b = true → r b c = true → r a c = true)
    (l : List α) : (isort r l).Pairwise (fun a b => r a b = true) := by
  induction l with
  | nil => simp [isort]
  | cons x xs ih => exact ins_pairwise r htot htrans x (isort r xs) ih

theorem dictSet_append (l : List (String × α)) (k : String) (v : α)
    (h : ∀ p ∈ l, p.1 ≠ k) : dictSet l k v = l ++ [(k, v)] := by
  induction l with
  | nil => rfl
  | cons p rest ih =>
    obtain ⟨k', v'⟩ := p
    simp only [dictSet]
    rw [if_neg (h (k', v') (List.mem_cons_self _ _))]
    rw [ih (fun q hq => h q (List.mem_cons_of_mem _ hq))]
    simp

theorem lookup_none_keys (l : List (String × α)) (k : String)
    (h : l.lookup k = none) : ∀ p ∈ l, p.1 ≠ k := by
  induction l with
  | nil => intro p hp; cases hp
  | cons q rest ih =>
    obtain ⟨k', v'⟩ := q
    intro p hp
    by_cases hk : k = k'
    · subst hk
      simp [List.lookup] at h
    · have hbe : (k == k') = false := beq_eq_false_iff_ne.mpr hk
      have h' : rest.lookup k = none := by
        simpa [List.lookup, hbe] using h
      rcases List.mem_cons.mp hp with rfl | hp'
      · simpa using fun e => hk e.symm
      · exact ih h' p hp'

theorem lookup_split (l : List (String × α)) (k : String) (v₀ : α)
    (h : l.lookup k = some v₀) :
    ∃ l₁ l₂, l = l₁ ++ (k, v₀) :: l₂ ∧ (∀ p ∈ l₁, p.1 ≠ k) ∧
      ∀ v, dictSet l k v = l₁ ++ (k, v) :: l₂ := by
  induction l with
  | nil => simp [List.lookup] at h
  | cons q rest ih =>
    obtain ⟨k', v'⟩ := q
    by_cases hk : k = k'
    · subst hk
      have hv : v' = v₀ := by simpa [List.lookup] using h
      subst hv
      refine ⟨[], rest, by simp, by simp, ?_⟩
      intro v
      simp [dictSet]
    · have hbe : (k == k') = false := beq_eq_false_iff_ne.mpr hk
      have h' : rest.lookup k = some v₀ := by
        simpa [List.lookup, hbe] using h
      obtain ⟨l₁, l₂, hsplit, hne, hset⟩ := ih h'
      refine ⟨(k', v') :: l₁, l₂, by simp [hsplit], ?_, ?_⟩
      · intro p hp
        rcases List.mem_cons.mp hp with rfl | hp'
        · simpa using fun e => hk e.symm
        · exact hne p hp'
      · intro v
        simp only [dictSet]
        rw [if_neg (fun e => hk e.symm), hset v]
        simp

/-! ### Characterizing the RRF score dict -/

/-- The dense summand of `specFusedScore`. -/
def denseContrib (cfg : HybridSearchConfig) (dense : List RetrievedDocument) (c : String) : ℚ :=
  match dense.find? (fun d => d.chunk_id = c) with
  | some d => cfg.dense_weight / ((cfg.rrf_k : ℚ) + (d.rank : ℚ))
  | none => 0

/-- The sparse summand of `specFusedScore`. -/
def sparseContrib (cfg : HybridSearchConfig) (sparse : List RetrievedDocument) (c : String) : ℚ :=
  match sparse.find? (fun d => d.chunk_id = c) with
  | some d => cfg.sparse_weight / ((cfg.rrf_k : ℚ) + (d.rank : ℚ))
  | none => 0

theorem specFusedScore_eq_contribs (cfg : HybridSearchConfig)
    (dense sparse : List RetrievedDocument) (c : String) :
    specFusedScore cfg dense sparse c = denseContrib cfg dense c + sparseContrib cfg sparse c := by
  unfold specFusedScore denseContrib sparseContrib
  cases dense.find? (fun d => d.chunk_id = c) <;>
    cases sparse.find? (fun d => d.chunk_id = c) <;> simp

theorem find?_chunk_self (l : List RetrievedDocument) (d : RetrievedDocument)
    (hnd : (l.map (fun x => x.chunk_id)).Nodup) (hd : d ∈ l) :
    l.find? (fun x => x.chunk_id = d.chunk_id) = some d := by
  induction l with
  | nil => cases hd
  | cons y ys ih =>
    rw [List.map_cons, List.nodup_cons] at hnd
    obtain ⟨hy, hys⟩ := hnd
    rcases List.mem_cons.mp hd with rfl | hd'
    · exact List.find?_cons_of_pos _ (by simp)
    · have hne : y.chunk_id ≠ d.chunk_id :=
        fun e => hy (e ▸ List.mem_map_of_mem (fun x => x.chunk_id) hd')
      rw [List.find?_cons_of_neg _ (by simp [hne])]
      exact ih hys hd'

theorem find?_chunk_none (l : List RetrievedDocument) (c : String)
    (h : c ∉ l.map (fun x => x.chunk_id)) :
    l.find? (fun x => x.chunk_id = c) = none := by
  apply List.find?_eq_none.mpr
  intro x hx
  simp only [decide_eq_true_eq]
  exact fun e => h (e ▸ List.mem_map_of_mem (fun x => x.chunk_id) hx)

theorem sparseContrib_cons_ne (cfg : HybridSearchConfig) (x : RetrievedDocument)
    (xs : List RetrievedDocument) (c : String) (h : x.chunk_id ≠ c) :
    sparseContrib cfg (x :: xs) c = sparseContrib cfg xs c := by
  unfold sparseContrib
  rw [List.find?_cons_of_neg _ (by simp [h])]

theorem sparseContrib_cons_self (cfg : HybridSearchConfig) (x : RetrievedDocument)
    (xs : List RetrievedDocument) :
    sparseContrib cfg (x :: xs) x.chunk_id
      = cfg.sparse_weight / ((cfg.rrf_k : ℚ) + (x.rank : ℚ)) := by
  unfold sparseContrib
  rw [List.find?_cons_of_pos _ (by simp)]

theorem sparseContrib_eq_zero (cfg : HybridSearchConfig) (xs : List RetrievedDocument)
    (c : String) (h : c ∉ xs.map (fun d => d.chunk_id)) :
    sparseContrib cfg xs c = 0 := by
  unfold sparseContrib
  rw [find?_chunk_none xs c h]

theorem foldl_dictSet_fresh (f : RetrievedDocument → ℚ × RetrievedDocument)
    (l : List RetrievedDocument) :
    ∀ (acc : List (String × (ℚ × RetrievedDocument))),
      (l.map (fun d => d.chunk_id)).Nodup →
      (∀ d ∈ l, ∀ p ∈ acc, p.1 ≠ d.chunk_id) →
      l.foldl (fun scores doc => dictSet scores doc.chunk_id (f doc)) acc
        = acc ++ l.map (fun d => (d.chunk_id, f d)) := by
  induction l with
  | nil => intro acc _ _; simp
  | cons d ds ih =>
    intro acc hnd hfresh
    rw [List.map_cons, List.nodup_cons] at hnd
    obtain ⟨hd, hds⟩ := hnd
    simp only [List.foldl_cons]
    rw [dictSet_append acc d.chunk_id (f d)
      (fun p hp => hfresh d (List.mem_cons_self _ _) p hp)]
    rw [ih (acc ++ [(d.chunk_id, f d)]) hds ?_]
    · simp
    · intro x hx p hp
      rcases List.mem_append.mp hp with hp' | hp'
      · exact hfresh x (List.mem_cons_of_mem _ hx) p hp'
      · have hp2 : p = (d.chunk_id, f d) := List.mem_singleton.mp hp'
        subst hp2
        show d.chunk_id ≠ x.chunk_id
        intro e
        exact hd (e ▸ List.mem_map_of_mem (fun y => y.chunk_id) hx)

theorem rrfDense_eq (cfg : HybridSearchConfig) (dense : List RetrievedDocument)
    (hnd : (dense.map (fun d => d.chunk_id)).Nodup) :
    rrfDense cfg dense
      = dense.map (fun d =>
          (d.chunk_id, (cfg.dense_weight / ((cfg.rrf_k : ℚ) + (d.rank : ℚ)), d))) := by
  unfold rrfDense
  rw [foldl_dictSet_fresh _ dense [] hnd (by intro d _ p hp; cases hp)]
  simp

/-- The sparse loop sums each sparse contribution into the matching dense
entry (in place) and appends entries for chunks seen only in the sparse
list, preserving order. -/
theorem rrfSparse_eq (cfg : HybridSearchConfig) :
    ∀ (sparse : List RetrievedDocument) (scores : List (String × (ℚ × RetrievedDocument))),
      (sparse.map (fun d => d.chunk_id)).Nodup →
      (scores.map Prod.fst).Nodup →
      rrfSparse cfg scores sparse =
        scores.map (fun e => (e.1, (e.2.1 + sparseContrib cfg sparse e.1, e.2.2)))
          ++ (sparse.filter (fun d => d.chunk_id ∉ scores.map Prod.fst)).map
              (fun d => (d.chunk_id, (cfg.sparse_weight / ((cfg.rrf_k : ℚ) + (d.rank : ℚ)), d))) := by
  intro sparse
  induction sparse with
  | nil =>
    intro scores _ _
    simp only [rrfSparse, List.foldl_nil, List.filter_nil, List.map_nil, List.append_nil]
    have h : ∀ e ∈ scores, (e.1, (e.2.1 + sparseContrib cfg [] e.1, e.2.2)) = e := by
      intro e _
      simp [sparseContrib, List.find?]
    rw [List.map_congr_left h]
    simp
  | cons x xs ih =>
    intro scores hnd hks
    rw [List.map_cons, List.nodup_cons] at hnd
    obtain ⟨hx, hxs⟩ := hnd
    cases hlk : scores.lookup x.chunk_id with
    | some val =>
      obtain ⟨s₀, d₀⟩ := val
      have hstep : rrfSparse cfg scores (x :: xs) =
          rrfSparse cfg (dictSet scores x.chunk_id
            (s₀ + cfg.sparse_weight / ((cfg.rrf_k : ℚ) + (x.rank : ℚ)), d₀)) xs := by
        simp only [rrfSparse, List.foldl_cons, hlk]
      obtain ⟨l₁, l₂, hsplit, hl₁, hset⟩ := lookup_split scores x.chunk_id (s₀, d₀) hlk
      subst hsplit
      have hkl₂ : ∀ p ∈ l₂, p.1 ≠ x.chunk_id := by
        intro p hp
        simp only [List.map_append, List.map_cons] at hks
        have h2 := (List.nodup_append.mp hks).2.1
        rw [List.nodup_cons] at h2
        exact fun e => h2.1 (e ▸ List.mem_map_of_mem Prod.fst hp)
      rw [hstep, hset _, ih _ hxs (by simpa using hks)]
      have efil₂ : List.filter
            (fun d => decide (d.chunk_id ∉
              (l₁ ++ (x.chunk_id, (s₀ + cfg.sparse_weight / ((cfg.rrf_k : ℚ) + (x.rank : ℚ)), d₀)) :: l₂).map Prod.fst)) xs
          = List.filter
            (fun d => decide (d.chunk_id ∉
              (l₁ ++ (x.chunk_id, (s₀, d₀)) :: l₂).map Prod.fst)) xs := by
        apply List.filter_congr
        intro y _
        simp
      have efil : List.filter
            (fun d => decide (d.chunk_id ∉
              (l₁ ++ (x.chunk_id, (s₀, d₀)) :: l₂).map Prod.fst)) (x :: xs)
          = List.filter
            (fun d => decide (d.chunk_id ∉
              (l₁ ++ (x.chunk_id, (s₀, d₀)) :: l₂).map Prod.fst)) xs := by
        rw [List.filter_cons_of_neg]
        simp
      rw [efil₂, efil]
      simp only [List.map_append, List.map_cons]
      have e₁ : l₁.map (fun e => (e.1, (e.2.1 + sparseContrib cfg xs e.1, e.2.2)))
          = l₁.map (fun e => (e.1, (e.2.1 + sparseContrib cfg (x :: xs) e.1, e.2.2))) :=
        List.map_congr_left (fun p hp => by
          rw [sparseContrib_cons_ne cfg x xs p.1 (fun e => hl₁ p hp e.symm)])
      have e₂ : l₂.map (fun e => (e.1, (e.2.1 + sparseContrib cfg xs e.1, e.2.2)))
          = l₂.map (fun e => (e.1, (e.2.1 + sparseContrib cfg (x :: xs) e.1, e.2.2))) :=
        List.map_congr_left (fun p hp => by
          rw [sparseContrib_cons_ne cfg x xs p.1 (fun e => hkl₂ p hp e.symm)])
      have emid : s₀ + cfg.sparse_weight / ((cfg.rrf_k : ℚ) + (x.rank : ℚ)) + sparseContrib cfg xs x.chunk_id
          = s₀ + sparseContrib cfg (x :: xs) x.chunk_id := by
        rw [sparseContrib_eq_zero cfg xs x.chunk_id hx, sparseContrib_cons_self cfg x xs, add_zero]
      rw [e₁, e₂, emid]
    | none =>
      have hfresh : ∀ p ∈ scores, p.1 ≠ x.chunk_id := lookup_none_keys scores x.chunk_id hlk
      have hstep : rrfSparse cfg scores (x :: xs) =
          rrfSparse cfg (dictSet scores x.chunk_id
            (cfg.sparse_weight / ((cfg.rrf_k : ℚ) + (x.rank : ℚ)), x)) xs := by
        simp only [rrfSparse, List.foldl_cons, hlk]
      rw [hstep, dictSet_append scores x.chunk_id _ hfresh]
      have hknew : (((scores ++ [(x.chunk_id, (cfg.sparse_weight / ((cfg.rrf_k : ℚ) + (x.rank : ℚ)), x))]).map Prod.fst)).Nodup := by
        simp only [List.map_append, List.map_cons, List.map_nil]
        rw [List.nodup_append]
        refine ⟨hks, List.nodup_singleton _, ?_⟩
        intro a ha hb
        rcases List.mem_singleton.mp hb with rfl
        rcases List.mem_map.mp ha with ⟨p, hp, hpe⟩
        exact hfresh p hp hpe
      rw [ih _ hxs hknew]
      have efilx : List.filter (fun d => decide (d.chunk_id ∉ scores.map Prod.fst)) (x :: xs)
          = x :: List.filter (fun d => decide (d.chunk_id ∉ scores.map Prod.fst)) xs := by
        rw [List.filter_cons_of_pos]
        simp only [decide_eq_true_eq]
        intro hmem
        rcases List.mem_map.mp hmem with ⟨p, hp, hpe⟩
        exact hfresh p hp hpe
      have efil₂ : List.filter
            (fun d => decide (d.chunk_id ∉
              (scores ++ [(x.chunk_id, (cfg.sparse_weight / ((cfg.rrf_k : ℚ) + (x.rank : ℚ)), x))]).map Prod.fst)) xs
          = List.filter (fun d => decide (d.chunk_id ∉ scores.map Prod.fst)) xs := by
        apply List.filter_congr
        intro y hy
        have hyne : y.chunk_id ≠ x.chunk_id :=
          fun e => hx (e ▸ List.mem_map_of_mem (fun d => d.chunk_id) hy)
        simp [hyne]
      rw [efil₂, efilx]
      simp only [List.map_append, List.map_cons, List.map_nil]
      have e₁ : scores.map (fun e => (e.1, (e.2.1 + sparseContrib cfg xs e.1, e.2.2)))
          = scores.map (fun e => (e.1, (e.2.1 + sparseContrib cfg (x :: xs) e.1, e.2.2))) :=
        List.map_congr_left (fun p hp => by
          rw [sparseContrib_cons_ne cfg x xs p.1 (fun e => hfresh p hp e.symm)])
      have emid : cfg.sparse_weight / ((cfg.rrf_k : ℚ) + (x.rank : ℚ)) + sparseContrib cfg xs x.chunk_id
          = cfg.sparse_weight / ((cfg.rrf_k : ℚ) + (x.rank : ℚ)) := by
        rw [sparseContrib_eq_zero cfg xs x.chunk_id hx, add_zero]
      have emidc : cfg.sparse_weight / ((cfg.rrf_k : ℚ) + (x.rank : ℚ))
          = sparseContrib cfg (x :: xs) x.chunk_id :=
        (sparseContrib_cons_self cfg x xs).symm
      rw [e₁, emid]
      simp

/-- The fully built score dict: one entry per dense result (carrying its
summed score) followed by one entry per sparse-only result, each entry's
score being exactly the spec's summed contribution. -/
theorem rrfScores_eq (cfg : HybridSearchConfig) (dense sparse : List RetrievedDocument)
    (hnd : (dense.map (fun d => d.chunk_id)).Nodup)
    (hns : (sparse.map (fun d => d.chunk_id)).Nodup) :
    rrfScores cfg dense sparse =
      dense.map (fun d => (d.chunk_id, (specFusedScore cfg dense sparse d.chunk_id, d)))
        ++ (sparse.filter (fun x => x.chunk_id ∉ dense.map (fun d => d.chunk_id))).map
            (fun x => (x.chunk_id, (specFusedScore cfg dense sparse x.chunk_id, x))) := by
  unfold rrfScores
  have hkeys : (rrfDense cfg dense).map Prod.fst = dense.map (fun d => d.chunk_id) := by
    rw [rrfDense_eq cfg dense hnd, List.map_map]
    rfl
  rw [rrfSparse_eq cfg sparse (rrfDense cfg dense) hns (by rw [hkeys]; exact hnd)]
  simp only [hkeys]
  rw [rrfDense_eq cfg dense hnd, List.map_map]
  congr 1
  · apply List.map_congr_left
    intro d hd
    simp only [Function.comp]
    have hfind : dense.find? (fun x => x.chunk_id = d.chunk_id) = some d :=
      find?_chunk_self dense d hnd hd
    rw [specFusedScore_eq_contribs]
    unfold denseContrib
    rw [hfind]
  · apply List.map_congr_left
    intro x hx
    have hxs : x ∈ sparse := (List.mem_filter.mp hx).1
    have hxnd : x.chunk_id ∉ dense.map (fun d => d.chunk_id) := by
      have := (List.mem_filter.mp hx).2
      simpa using this
    rw [specFusedScore_eq_contribs]
    unfold denseContrib sparseContrib
    rw [find?_chunk_none dense x.chunk_id hxnd, find?_chunk_self sparse x hns hxs, zero_add]

theorem rrfScores_entry_props (cfg : HybridSearchConfig) (dense sparse : List RetrievedDocument)
    (hnd : (dense.map (fun d => d.chunk_id)).Nodup)
    (hns : (sparse.map (fun d => d.chunk_id)).Nodup) :
    ∀ e ∈ rrfScores cfg dense sparse,
      e.2.1 = specFusedScore cfg dense sparse e.1 ∧ e.2.2.chunk_id = e.1 := by
  rw [rrfScores_eq cfg dense sparse hnd hns]
  intro e he
  rcases List.mem_append.mp he with h | h <;>
    · rcases List.mem_map.mp h with ⟨d, hd, rfl⟩
      exact ⟨rfl, rfl⟩

theorem rrfScores_keys (cfg : HybridSearchConfig) (dense sparse : List RetrievedDocument)
    (hnd : (dense.map (fun d => d.chunk_id)).Nodup)
    (hns : (sparse.map (fun d => d.chunk_id)).Nodup) :
    (rrfScores cfg dense sparse).map Prod.fst
      = dense.map (fun d => d.chunk_id)
        ++ (sparse.filter (fun x => x.chunk_id ∉ dense.map (fun d => d.chunk_id))).map
            (fun d => d.chunk_id) := by
  rw [rrfScores_eq cfg dense sparse hnd hns, List.map_append, List.map_map, List.map_map]
  rfl

theorem rrfScores_keys_nodup (cfg : HybridSearchConfig) (dense sparse : List RetrievedDocument)
    (hnd : (dense.map (fun d => d.chunk_id)).Nodup)
    (hns : (sparse.map (fun d => d.chunk_id)).Nodup) :
    ((rrfScores cfg dense sparse).map Prod.fst).Nodup := by
  rw [rrfScores_keys cfg dense sparse hnd hns, List.nodup_append]
  refine ⟨hnd, ?_, ?_⟩
  · exact hns.sublist ((List.filter_sublist sparse).map (fun d => d.chunk_id))
  · intro a ha hb
    rcases List.mem_map.mp hb with ⟨x, hxf, rfl⟩
    have hnotin := (List.mem_filter.mp hxf).2
    simp only [decide_eq_true_eq] at hnotin
    exact hnotin ha

theorem rrfScores_keys_mem (cfg : HybridSearchConfig) (dense sparse : List RetrievedDocument)
    (hnd : (dense.map (fun d => d.chunk_id)).Nodup)
    (hns : (sparse.map (fun d => d.chunk_id)).Nodup) (c : String) :
    c ∈ (rrfScores cfg dense sparse).map Prod.fst ↔
      c ∈ dense.map (fun d => d.chunk_id) ∨ c ∈ sparse.map (fun d => d.chunk_id) := by
  rw [rrfScores_keys cfg dense sparse hnd hns]
  constructor
  · intro h
    rcases List.mem_append.mp h with h | h
    · exact Or.inl h
    · rcases List.mem_map.mp h with ⟨x, hxf, rfl⟩
      exact Or.inr (List.mem_map_of_mem _ (List.mem_filter.mp hxf).1)
  · intro h
    by_cases hc : c ∈ dense.map (fun d => d.chunk_id)
    · exact List.mem_append.mpr (Or.inl hc)
    · rcases h with h | h
      · exact absurd h hc
      · rcases List.mem_map.mp h with ⟨x, hx, rfl⟩
        refine List.mem_append.mpr (Or.inr ?_)
        exact List.mem_map_of_mem _ (List.mem_filter.mpr ⟨hx, by simpa using hc⟩)

theorem rrfEntries_props (cfg : HybridSearchConfig) (dense sparse : List RetrievedDocument)
    (hnd : (dense.map (fun d => d.chunk_id)).Nodup)
    (hns : (sparse.map (fun d => d.chunk_id)).Nodup) :
    ∀ ent ∈ rrfEntries cfg dense sparse,
      ent.score = specFusedScore cfg dense sparse ent.key ∧ ent.doc.chunk_id = ent.key := by
  intro ent hent
  unfold rrfEntries at hent
  rcases List.mem_map.mp hent with ⟨p, hp, rfl⟩
  obtain ⟨q, i⟩ := p
  have hmem := List.mem_enum (x := i) (i := q) hp
  have hsc : i ∈ rrfScores cfg dense sparse := by
    rw [hmem.2]
    exact List.getElem_mem hmem.1
  exact rrfScores_entry_props cfg dense sparse hnd hns i hsc

theorem rrfEntries_keys (cfg : HybridSearchConfig) (dense sparse : List RetrievedDocument) :
    (rrfEntries cfg dense sparse).map (fun ent => ent.key)
      = (rrfScores cfg dense sparse).map Prod.fst := by
  unfold rrfEntries
  rw [List.map_map]
  have h : (rrfScores cfg dense sparse).enum.map Prod.snd = rrfScores cfg dense sparse :=
    List.enum_map_snd _
  calc ((rrfScores cfg dense sparse).enum.map
          ((fun ent => ent.key) ∘ (fun p => RRFEntry.mk p.1 p.2.1 p.2.2.1 p.2.2.2)))
      = ((rrfScores cfg dense sparse).enum.map (Prod.fst ∘ Prod.snd)) := rfl
    _ = (((rrfScores cfg dense sparse).enum.map Prod.snd).map Prod.fst) := by
          rw [List.map_map]
    _ = (rrfScores cfg dense sparse).map Prod.fst := by rw [h]

theorem entry_before_total (a b : RRFEntry) :
    entry_before a b = true ∨ entry_before b a = true := by
  unfold entry_before
  rcases lt_trichotomy a.score b.score with h | h | h
  · right; simp [h]
  · rcases Nat.le_total a.idx b.idx with hi | hi
    · left; simp [h, hi]
    · right; simp [h.symm, hi]
  · left; simp [h]

theorem entry_before_trans (a b c : RRFEntry)
    (h1 : entry_before a b = true) (h2 : entry_before b c = true) :
    entry_before a c = true := by
  unfold entry_before at h1 h2 ⊢
  simp only [Bool.or_eq_true, Bool.and_eq_true, decide_eq_true_eq] at h1 h2 ⊢
  rcases h1 with h1 | ⟨h1e, h1i⟩ <;> rcases h2 with h2 | ⟨h2e, h2i⟩
  · exact Or.inl (h2.trans h1)
  · exact Or.inl (h2e ▸ h1)
  · exact Or.inl (lt_of_lt_of_eq h2 h1e.symm)
  · exact Or.inr ⟨h1e.trans h2e, h1i.trans h2i⟩

theorem entry_before_le (a b : RRFEntry) (h : entry_before a b = true) :
    b.score ≤ a.score := by
  unfold entry_before at h
  simp only [Bool.or_eq_true, Bool.and_eq_true, decide_eq_true_eq] at h
  rcases h with h | ⟨he, _⟩
  · exact le_of_lt h
  · exact le_of_eq he.symm

theorem rrfSorted_perm (cfg : HybridSearchConfig) (dense sparse : List RetrievedDocument) :
    (rrfSorted cfg dense sparse).Perm (rrfEntries cfg dense sparse) :=
  isort_perm entry_before (rrfEntries cfg dense sparse)

theorem rrfSorted_props (cfg : HybridSearchConfig) (dense sparse : List RetrievedDocument)
    (hnd : (dense.map (fun d => d.chunk_id)).Nodup)
    (hns : (sparse.map (fun d => d.chunk_id)).Nodup) :
    ∀ ent ∈ rrfSorted cfg dense sparse,
      ent.score = specFusedScore cfg dense sparse ent.key ∧ ent.doc.chunk_id = ent.key := by
  intro ent hent
  exact rrfEntries_props cfg dense sparse hnd hns ent
    ((rrfSorted_perm cfg dense sparse).mem_iff.mp hent)

theorem rrfSorted_pairwise (cfg : HybridSearchConfig) (dense sparse : List RetrievedDocument) :
    (rrfSorted cfg dense sparse).Pairwise (fun a b => b.score ≤ a.score) :=
  (isort_pairwise entry_before entry_before_total entry_before_trans
    (rrfEntries cfg dense sparse)).imp (fun h => entry_before_le _ _ h)

theorem fusion_getElem (cfg : HybridSearchConfig) (dense sparse : List RetrievedDocument)
    (i : Nat) (h : i < (reciprocal_rank_fusion cfg dense sparse).length) :
    ∃ hi : i < (rrfSorted cfg dense sparse).length,
      (reciprocal_rank_fusion cfg dense sparse).get ⟨i, h⟩
        = { ((rrfSorted cfg dense sparse).get ⟨i, hi⟩).doc with
              score := min (((rrfSorted cfg dense sparse).get ⟨i, hi⟩).score * 10) 1,
              rank := i } := by
  have hi : i < (rrfSorted cfg dense sparse).length := by
    have := h
    unfold reciprocal_rank_fusion at this
    rwa [List.length_map, List.enum_length] at this
  refine ⟨hi, ?_⟩
  rw [List.get_eq_getElem, List.get_eq_getElem]
  unfold reciprocal_rank_fusion
  rw [List.getElem_map, List.getElem_enum]

theorem fusion_length (cfg : HybridSearchConfig) (dense sparse : List RetrievedDocument) :
    (reciprocal_rank_fusion cfg dense sparse).length = (rrfSorted cfg dense sparse).length := by
  unfold reciprocal_rank_fusion
  rw [List.length_map, List.enum_length]

/-- Every fused document's rank is its 0-based position in the output. -/
theorem fusion_rank (cfg : HybridSearchConfig) (dense sparse : List RetrievedDocument)
    (i : Nat) (h : i < (reciprocal_rank_fusion cfg dense sparse).length) :
    ((reciprocal_rank_fusion cfg dense sparse).get ⟨i, h⟩).rank = i := by
  obtain ⟨hi, he⟩ := fusion_getElem cfg dense sparse i h
  rw [he]

/-- Every fused document's score is the clamped, rescaled spec score of its
chunk. -/
theorem fusion_score (cfg : HybridSearchConfig) (dense sparse : List RetrievedDocument)
    (hnd : (dense.map (fun d => d.chunk_id)).Nodup)
    (hns : (sparse.map (fun d => d.chunk_id)).Nodup) :
    ∀ d ∈ reciprocal_rank_fusion cfg dense sparse,
      d.score = min (specFusedScore cfg dense sparse d.chunk_id * 10) 1 := by
  have hidx : ∀ (i : Nat) (h : i < (reciprocal_rank_fusion cfg dense sparse).length),
      ((reciprocal_rank_fusion cfg dense sparse).get ⟨i, h⟩).score
        = min (specFusedScore cfg dense sparse
            (((reciprocal_rank_fusion cfg dense sparse).get ⟨i, h⟩).chunk_id) * 10) 1 := by
    intro i h
    obtain ⟨hi, he⟩ := fusion_getElem cfg dense sparse i h
    have hp := rrfSorted_props cfg dense sparse hnd hns
      ((rrfSorted cfg dense sparse).get ⟨i, hi⟩)
      (by rw [List.get_eq_getElem]; exact List.getElem_mem hi)
    rw [he]
    dsimp only
    rw [hp.2, ← hp.1]
  intro d hd
  rcases List.mem_iff_getElem.mp hd with ⟨i, h, rfl⟩
  have := hidx i h
  simpa [List.get_eq_getElem] using this

theorem fusion_ids (cfg : HybridSearchConfig) (dense sparse : List RetrievedDocument) :
    (reciprocal_rank_fusion cfg dense sparse).map (fun d => d.chunk_id)
      = (rrfSorted cfg dense sparse).map (fun ent => ent.doc.chunk_id) := by
  unfold reciprocal_rank_fusion
  rw [List.map_map]
  have h2 : ((rrfSorted cfg dense sparse).enum.map Prod.snd).map (fun ent => ent.doc.chunk_id)
      = (rrfSorted cfg dense sparse).map (fun ent => ent.doc.chunk_id) := by
    rw [List.enum_map_snd]
  rw [← h2, List.map_map]
  rfl

theorem fusion_ids_perm (cfg : HybridSearchConfig) (dense sparse : List RetrievedDocument)
    (hnd : (dense.map (fun d => d.chunk_id)).Nodup)
    (hns : (sparse.map (fun d => d.chunk_id)).Nodup) :
    ((reciprocal_rank_fusion cfg dense sparse).map (fun d => d.chunk_id)).Perm
      ((rrfScores cfg dense sparse).map Prod.fst) := by
  rw [fusion_ids]
  have hcongr : (rrfEntries cfg dense sparse).map (fun ent => ent.doc.chunk_id)
      = (rrfEntries cfg dense sparse).map (fun ent => ent.key) :=
    List.map_congr_left (fun ent hent => (rrfEntries_props cfg dense sparse hnd hns ent hent).2)
  have hperm := (rrfSorted_perm cfg dense sparse).map (fun ent => ent.doc.chunk_id)
  rw [hcongr, rrfEntries_keys cfg dense sparse] at hperm
  exact hperm

theorem fusion_ids_nodup (cfg : HybridSearchConfig) (dense sparse : List RetrievedDocument)
    (hnd : (dense.map (fun d => d.chunk_id)).Nodup)
    (hns : (sparse.map (fun d => d.chunk_id)).Nodup) :
    ((reciprocal_rank_fusion cfg dense sparse).map (fun d => d.chunk_id)).Nodup :=
  ((fusion_ids_perm cfg dense sparse hnd hns).nodup_iff).mpr
    (rrfScores_keys_nodup cfg dense sparse hnd hns)

theorem fusion_ids_mem (cfg : HybridSearchConfig) (dense sparse : List RetrievedDocument)
    (hnd : (dense.map (fun d => d.chunk_id)).Nodup)
    (hns : (sparse.map (fun d => d.chunk_id)).Nodup) (c : String) :
    c ∈ (reciprocal_rank_fusion cfg dense sparse).map (fun d => d.chunk_id) ↔
      c ∈ dense.map (fun d => d.chunk_id) ∨ c ∈ sparse.map (fun d => d.chunk_id) := by
  rw [(fusion_ids_perm cfg dense sparse hnd hns).mem_iff]
  exact rrfScores_keys_mem cfg dense sparse hnd hns c

theorem fusion_sorted_by_spec (cfg : HybridSearchConfig) (dense sparse : List RetrievedDocument)
    (hnd : (dense.map (fun d => d.chunk_id)).Nodup)
    (hns : (sparse.map (fun d => d.chunk_id)).Nodup)
    (i j : Nat) (hi : i < (reciprocal_rank_fusion cfg dense sparse).length)
    (hj : j < (reciprocal_rank_fusion cfg dense sparse).length) (hij : i ≤ j) :
    specFusedScore cfg dense sparse
        (((reciprocal_rank_fusion cfg dense sparse).get ⟨j, hj⟩).chunk_id)
      ≤ specFusedScore cfg dense sparse
        (((reciprocal_rank_fusion cfg dense sparse).get ⟨i, hi⟩).chunk_id) := by
  rcases eq_or_lt_of_le hij with rfl | hlt
  · exact le_refl _
  · obtain ⟨hi', hei⟩ := fusion_getElem cfg dense sparse i hi
    obtain ⟨hj', hej⟩ := fusion_getElem cfg dense sparse j hj
    have hpi := rrfSorted_props cfg dense sparse hnd hns
      ((rrfSorted cfg dense sparse).get ⟨i, hi'⟩)
      (by rw [List.get_eq_getElem]; exact List.getElem_mem hi')
    have hpj := rrfSorted_props cfg dense sparse hnd hns
      ((rrfSorted cfg dense sparse).get ⟨j, hj'⟩)
      (by rw [List.get_eq_getElem]; exact List.getElem_mem hj')
    rw [hei, hej]
    dsimp only
    rw [hpi.2, hpj.2, ← hpi.1, ← hpj.1]
    have hpw := rrfSorted_pairwise cfg dense sparse
    rw [List.pairwise_iff_get] at hpw
    exact hpw ⟨i, hi'⟩ ⟨j, hj'⟩ (by simpa using hlt)

theorem retrieveResults_both (cfg : HybridSearchConfig) (top_k : Nat)
    (dense sparse : List RetrievedDocument)
    (hud : cfg.use_dense = true) (hus : cfg.use_sparse = true)
    (hd : dense ≠ []) (hs : sparse ≠ []) :
    retrieveResults cfg top_k (.ok dense) (.ok sparse)
      = (reciprocal_rank_fusion cfg dense sparse).take top_k := by
  simp [retrieveResults, hud, hus, hd, hs]

theorem denseContrib_nonneg (cfg : HybridSearchConfig) (dense : List RetrievedDocument)
    (c : String) (hw : 0 ≤ cfg.dense_weight) : 0 ≤ denseContrib cfg dense c := by
  unfold denseContrib
  cases dense.find? (fun d => d.chunk_id = c) with
  | none => exact le_refl 0
  | some d => exact div_nonneg hw (by positivity)

theorem sparseContrib_nonneg (cfg : HybridSearchConfig) (sparse : List RetrievedDocument)
    (c : String) (hw : 0 ≤ cfg.sparse_weight) : 0 ≤ sparseContrib cfg sparse c := by
  unfold sparseContrib
  cases sparse.find? (fun d => d.chunk_id = c) with
  | none => exact le_refl 0
  | some d => exact div_nonneg hw (by positivity)

/-- C3: with both source lists non-empty and carrying distinct chunk ids,
`_reciprocal_rank_fusion` (i) keys the output by chunk id, one output item
per chunk seen in either source; (ii) gives every output item the score
`min(10 × summed_score, 1.0)` where the summed score adds
`weight / (k + rank_in_that_source)` over the sources containing the chunk;
(iii) orders the output descending by summed score; (iv) reassigns dense
0-based ranks `0..n-1`; and (v) `retrieve` returns the top `top_k` of this
list. -/
theorem C3_rrf_fusion_matches_spec (cfg : HybridSearchConfig)
    (dense sparse : List RetrievedDocument) (top_k : Nat)
    (hud : cfg.use_dense = true) (hus : cfg.use_sparse = true)
    (hd : dense ≠ []) (hs : sparse ≠ [])
    (hnd : (dense.map (fun d => d.chunk_id)).Nodup)
    (hns : (sparse.map (fun d => d.chunk_id)).Nodup) :
    (((reciprocal_rank_fusion cfg dense sparse).map (fun d => d.chunk_id)).Nodup
      ∧ ∀ c, c ∈ (reciprocal_rank_fusion cfg dense sparse).map (fun d => d.chunk_id) ↔
          (c ∈ dense.map (fun d => d.chunk_id) ∨ c ∈ sparse.map (fun d => d.chunk_id)))
    ∧ (∀ d ∈ reciprocal_rank_fusion cfg dense sparse,
        d.score = min (10 * specFusedScore cfg dense sparse d.chunk_id) 1)
    ∧ (∀ (i j : Nat) (hi : i < (reciprocal_rank_fusion cfg dense sparse).length)
        (hj : j < (reciprocal_rank_fusion cfg dense sparse).length), i ≤ j →
        specFusedScore cfg dense sparse
            (((reciprocal_rank_fusion cfg dense sparse).get ⟨j, hj⟩).chunk_id)
          ≤ specFusedScore cfg dense sparse
            (((reciprocal_rank_fusion cfg dense sparse).get ⟨i, hi⟩).chunk_id))
    ∧ (∀ (i : Nat) (h : i < (reciprocal_rank_fusion cfg dense sparse).length),
        ((reciprocal_rank_fusion cfg dense sparse).get ⟨i, h⟩).rank = i)
    ∧ retrieveResults cfg top_k (.ok dense) (.ok sparse)
        = (reciprocal_rank_fusion cfg dense sparse).take top_k := by
  refine ⟨⟨fusion_ids_nodup cfg dense sparse hnd hns,
      fun c => fusion_ids_mem cfg dense sparse hnd hns c⟩, ?_,
    fun i j hi hj hij => fusion_sorted_by_spec cfg dense sparse hnd hns i j hi hj hij,
    fun i h => fusion_rank cfg dense sparse i h,
    retrieveResults_both cfg top_k dense sparse hud hus hd hs⟩
  intro d hdm
  rw [fusion_score cfg dense sparse hnd hns d hdm, mul_comm]

/-- A neutral retrieved document used to instantiate witnesses. -/
def sampleDoc (c : String) (r : Nat) : RetrievedDocument where
  chunk_id := c
  document_id := c
  content := c
  score := 0
  rank := r
  filename := ""
  document_type := ""

/-- The source default configuration: weights 0.7/0.3, k = 60, both sources
enabled. -/
def defaultHybridConfig : HybridSearchConfig := {}

/-- Witness for C3 on a concrete two-by-two retrieval. -/
theorem C3_witness :
    (defaultHybridConfig.use_dense = true ∧ defaultHybridConfig.use_sparse = true
      ∧ ([sampleDoc "A" 0, sampleDoc "B" 1] : List RetrievedDocument) ≠ []
      ∧ ([sampleDoc "B" 0, sampleDoc "C" 1] : List RetrievedDocument) ≠ []
      ∧ (([sampleDoc "A" 0, sampleDoc "B" 1].map (fun d => d.chunk_id)).Nodup)
      ∧ (([sampleDoc "B" 0, sampleDoc "C" 1].map (fun d => d.chunk_id)).Nodup))
    ∧ ((((reciprocal_rank_fusion defaultHybridConfig [sampleDoc "A" 0, sampleDoc "B" 1]
          [sampleDoc "B" 0, sampleDoc "C" 1]).map (fun d => d.chunk_id)).Nodup
      ∧ ∀ c, c ∈ (reciprocal_rank_fusion defaultHybridConfig [sampleDoc "A" 0, sampleDoc "B" 1]
              [sampleDoc "B" 0, sampleDoc "C" 1]).map (fun d => d.chunk_id) ↔
          (c ∈ [sampleDoc "A" 0, sampleDoc "B" 1].map (fun d => d.chunk_id)
            ∨ c ∈ [sampleDoc "B" 0, sampleDoc "C" 1].map (fun d => d.chunk_id)))
    ∧ (∀ d ∈ reciprocal_rank_fusion defaultHybridConfig [sampleDoc "A" 0, sampleDoc "B" 1]
          [sampleDoc "B" 0, sampleDoc "C" 1],
        d.score = min (10 * specFusedScore defaultHybridConfig [sampleDoc "A" 0, sampleDoc "B" 1]
            [sampleDoc "B" 0, sampleDoc "C" 1] d.chunk_id) 1)
    ∧ (∀ (i j : Nat)
        (hi : i < (reciprocal_rank_fusion defaultHybridConfig [sampleDoc "A" 0, sampleDoc "B" 1]
            [sampleDoc "B" 0, sampleDoc "C" 1]).length)
        (hj : j < (reciprocal_rank_fusion defaultHybridConfig [sampleDoc "A" 0, sampleDoc "B" 1]
            [sampleDoc "B" 0, sampleDoc "C" 1]).length), i ≤ j →
        specFusedScore defaultHybridConfig [sampleDoc "A" 0, sampleDoc "B" 1]
            [sampleDoc "B" 0, sampleDoc "C" 1]
            (((reciprocal_rank_fusion defaultHybridConfig [sampleDoc "A" 0, sampleDoc "B" 1]
              [sampleDoc "B" 0, sampleDoc "C" 1]).get ⟨j, hj⟩).chunk_id)
          ≤ specFusedScore defaultHybridConfig [sampleDoc "A" 0, sampleDoc "B" 1]
            [sampleDoc "B" 0, sampleDoc "C" 1]
            (((reciprocal_rank_fusion defaultHybridConfig [sampleDoc "A" 0, sampleDoc "B" 1]
              [sampleDoc "B" 0, sampleDoc "C" 1]).get ⟨i, hi⟩).chunk_id))
    ∧ (∀ (i : Nat)
        (h : i < (reciprocal_rank_fusion defaultHybridConfig [sampleDoc "A" 0, sampleDoc "B" 1]
            [sampleDoc "B" 0, sampleDoc "C" 1]).length),
        ((reciprocal_rank_fusion defaultHybridConfig [sampleDoc "A" 0, sampleDoc "B" 1]
            [sampleDoc "B" 0, sampleDoc "C" 1]).get ⟨i, h⟩).rank = i)
    ∧ retrieveResults defaultHybridConfig 10 (.ok [sampleDoc "A" 0, sampleDoc "B" 1])
          (.ok [sampleDoc "B" 0, sampleDoc "C" 1])
        = (reciprocal_rank_fusion defaultHybridConfig [sampleDoc "A" 0, sampleDoc "B" 1]
            [sampleDoc "B" 0, sampleDoc "C" 1]).take 10) :=
  ⟨⟨rfl, rfl, by simp, by simp, by decide, by decide⟩,
    C3_rrf_fusion_matches_spec defaultHybridConfig
      [sampleDoc "A" 0, sampleDoc "B" 1] [sampleDoc "B" 0, sampleDoc "C" 1] 10
      rfl rfl (by simp) (by simp) (by decide) (by decide)⟩

/-- C4: an item present in both source lists receives a fused score at least
as high as the same item appearing in only one source list at an equal rank
(its contributions add and each contribution is non-negative); concretely,
with dense = [A(rank 0), B(rank 1)], sparse = [B(rank 0), C(rank 1)],
weights 0.7/0.3 and k = 60, item B's fused score strictly exceeds both A's
and C's. -/
theorem C4_rrf_monotonicity (cfg : HybridSearchConfig)
    (hw1 : 0 ≤ cfg.dense_weight) (hw2 : 0 ≤ cfg.sparse_weight) :
    (∀ (dense sparse sparseAbsent : List RetrievedDocument) (c : String),
        sparseAbsent.find? (fun d => d.chunk_id = c) = none →
        specFusedScore cfg dense sparseAbsent c ≤ specFusedScore cfg dense sparse c)
    ∧ (∀ (dense denseAbsent sparse : List RetrievedDocument) (c : String),
        denseAbsent.find? (fun d => d.chunk_id = c) = none →
        specFusedScore cfg denseAbsent sparse c ≤ specFusedScore cfg dense sparse c)
    ∧ (∃ dB ∈ reciprocal_rank_fusion defaultHybridConfig
          [sampleDoc "A" 0, sampleDoc "B" 1] [sampleDoc "B" 0, sampleDoc "C" 1],
        dB.chunk_id = "B"
        ∧ (∀ dA ∈ reciprocal_rank_fusion defaultHybridConfig
              [sampleDoc "A" 0, sampleDoc "B" 1] [sampleDoc "B" 0, sampleDoc "C" 1],
            dA.chunk_id = "A" → dA.score < dB.score)
        ∧ (∀ dC ∈ reciprocal_rank_fusion defaultHybridConfig
              [sampleDoc "A" 0, sampleDoc "B" 1] [sampleDoc "B" 0, sampleDoc "C" 1],
            dC.chunk_id = "C" → dC.score < dB.score)) := by
  refine ⟨?_, ?_, ?_⟩
  · intro dense sparse sparseAbsent c hno
    rw [specFusedScore_eq_contribs, specFusedScore_eq_contribs]
    have h0 : sparseContrib cfg sparseAbsent c = 0 := by
      unfold sparseContrib
      rw [hno]
    rw [h0]
    exact add_le_add_left (sparseContrib_nonneg cfg sparse c hw2) _
  · intro dense denseAbsent sparse c hno
    rw [specFusedScore_eq_contribs, specFusedScore_eq_contribs]
    have h0 : denseContrib cfg denseAbsent c = 0 := by
      unfold denseContrib
      rw [hno]
    rw [h0]
    exact add_le_add_right (denseContrib_nonneg cfg dense c hw1) _
  · have hnd0 : (([sampleDoc "A" 0, sampleDoc "B" 1] : List RetrievedDocument).map
        (fun d => d.chunk_id)).Nodup := by decide
    have hns0 : (([sampleDoc "B" 0, sampleDoc "C" 1] : List RetrievedDocument).map
        (fun d => d.chunk_id)).Nodup := by decide
    have hsA : specFusedScore defaultHybridConfig [sampleDoc "A" 0, sampleDoc "B" 1]
        [sampleDoc "B" 0, sampleDoc "C" 1] "A" = (7 : ℚ)/10 / 60 := by
      unfold specFusedScore
      rw [show ([sampleDoc "A" 0, sampleDoc "B" 1] : List RetrievedDocument).find?
          (fun d => d.chunk_id = "A") = some (sampleDoc "A" 0) from rfl]
      rw [show ([sampleDoc "B" 0, sampleDoc "C" 1] : List RetrievedDocument).find?
          (fun d => d.chunk_id = "A") = none from rfl]
      show (7 : ℚ)/10 / ((60 : ℚ) + ((0 : Nat) : ℚ)) + 0 = (7 : ℚ)/10 / 60
      norm_num
    have hsB : specFusedScore defaultHybridConfig [sampleDoc "A" 0, sampleDoc "B" 1]
        [sampleDoc "B" 0, sampleDoc "C" 1] "B" = (7 : ℚ)/10 / 61 + (3 : ℚ)/10 / 60 := by
      unfold specFusedScore
      rw [show ([sampleDoc "A" 0, sampleDoc "B" 1] : List RetrievedDocument).find?
          (fun d => d.chunk_id = "B") = some (sampleDoc "B" 1) from rfl]
      rw [show ([sampleDoc "B" 0, sampleDoc "C" 1] : List RetrievedDocument).find?
          (fun d => d.chunk_id = "B") = some (sampleDoc "B" 0) from rfl]
      show (7 : ℚ)/10 / ((60 : ℚ) + ((1 : Nat) : ℚ)) + (3 : ℚ)/10 / ((60 : ℚ) + ((0 : Nat) : ℚ))
          = (7 : ℚ)/10 / 61 + (3 : ℚ)/10 / 60
      norm_num
    have hsC : specFusedScore defaultHybridConfig [sampleDoc "A" 0, sampleDoc "B" 1]
        [sampleDoc "B" 0, sampleDoc "C" 1] "C" = (3 : ℚ)/10 / 61 := by
      unfold specFusedScore
      rw [show ([sampleDoc "A" 0, sampleDoc "B" 1] : List RetrievedDocument).find?
          (fun d => d.chunk_id = "C") = none from rfl]
      rw [show ([sampleDoc "B" 0, sampleDoc "C" 1] : List RetrievedDocument).find?
          (fun d => d.chunk_id = "C") = some (sampleDoc "C" 1) from rfl]
      show (0 : ℚ) + (3 : ℚ)/10 / ((60 : ℚ) + ((1 : Nat) : ℚ)) = (3 : ℚ)/10 / 61
      norm_num
    have hmemB : "B" ∈ (reciprocal_rank_fusion defaultHybridConfig
        [sampleDoc "A" 0, sampleDoc "B" 1] [sampleDoc "B" 0, sampleDoc "C" 1]).map
          (fun d => d.chunk_id) := by
      rw [fusion_ids_mem defaultHybridConfig _ _ hnd0 hns0]
      left
      decide
    rcases List.mem_map.mp hmemB with ⟨dB, hdB, hidB⟩
    refine ⟨dB, hdB, hidB, ?_, ?_⟩
    · intro dA hdA hidA
      rw [fusion_score defaultHybridConfig _ _ hnd0 hns0 dA hdA,
        fusion_score defaultHybridConfig _ _ hnd0 hns0 dB hdB, hidA, hidB, hsA, hsB]
      rw [min_eq_left (by norm_num), min_eq_left (by norm_num)]
      norm_num
    · intro dC hdC hidC
      rw [fusion_score defaultHybridConfig _ _ hnd0 hns0 dC hdC,
        fusion_score defaultHybridConfig _ _ hnd0 hns0 dB hdB, hidC, hidB, hsC, hsB]
      rw [min_eq_left (by norm_num), min_eq_left (by norm_num)]
      norm_num

/-- Witness for C4 at the default weights. -/
theorem C4_witness :
    ((0 : ℚ) ≤ defaultHybridConfig.dense_weight
      ∧ (0 : ℚ) ≤ defaultHybridConfig.sparse_weight)
    ∧ ((∀ (dense sparse sparseAbsent : List RetrievedDocument) (c : String),
        sparseAbsent.find? (fun d => d.chunk_id = c) = none →
        specFusedScore defaultHybridConfig dense sparseAbsent c
          ≤ specFusedScore defaultHybridConfig dense sparse c)
    ∧ (∀ (dense denseAbsent sparse : List RetrievedDocument) (c : String),
        denseAbsent.find? (fun d => d.chunk_id = c) = none →
        specFusedScore defaultHybridConfig denseAbsent sparse c
          ≤ specFusedScore defaultHybridConfig dense sparse c)
    ∧ (∃ dB ∈ reciprocal_rank_fusion defaultHybridConfig
          [sampleDoc "A" 0, sampleDoc "B" 1] [sampleDoc "B" 0, sampleDoc "C" 1],
        dB.chunk_id = "B"
        ∧ (∀ dA ∈ reciprocal_rank_fusion defaultHybridConfig
              [sampleDoc "A" 0, sampleDoc "B" 1] [sampleDoc "B" 0, sampleDoc "C" 1],
            dA.chunk_id = "A" → dA.score < dB.score)
        ∧ (∀ dC ∈ reciprocal_rank_fusion defaultHybridConfig
              [sampleDoc "A" 0, sampleDoc "B" 1] [sampleDoc "B" 0, sampleDoc "C" 1],
            dC.chunk_id = "C" → dC.score < dB.score))) :=
  ⟨⟨by norm_num [defaultHybridConfig], by norm_num [defaultHybridConfig]⟩,
    C4_rrf_monotonicity defaultHybridConfig
      (by norm_num [defaultHybridConfig]) (by norm_num [defaultHybridConfig])⟩

/-! ## app/retrieval/bm25.py -/

/-- `BM25Document`.  The metadata dict is modelled by its string-valued
fields, the only ones consulted by filtering and result assembly (the integer
`chunk_index` metadatum is not modelled and keeps its default 0). -/
structure BM25Document where
  doc_id : String
  chunk_id : String
  content : String
  metadata : List (String × String)
  deriving Repr

/-- A value of the `filter_dict` passed to `BM25Index.search`: either a
scalar (matched by equality) or a list (matched by membership). -/
inductive FilterVal where
  | single (s : String)
  | many (l : List String)
  deriving Repr

/-- One document's fate under `BM25Index._apply_filters`: the score survives
iff every filter field matches; a missing metadata field never matches. -/
def bm25_doc_passes (doc : BM25Document) (filter_dict : List (String × FilterVal)) : Bool :=
  filter_dict.all (fun fv =>
    match fv.2 with
    | .many allowed =>
        match doc.metadata.lookup fv.1 with
        | some v => allowed.contains v
        | none => false
    | .single s =>
        match doc.metadata.lookup fv.1 with
        | some v => v = s
        | none => false)

/-- `BM25Index._apply_filters`: zero out the scores of filtered-out
documents, position by position. -/
def apply_filters (documents : List BM25Document) (scores : List ℚ)
    (filter_dict : List (String × FilterVal)) : List ℚ :=
  List.zipWith (fun doc s => if bm25_doc_passes doc filter_dict then s else 0) documents scores

/-- `sorted(range(len(scores)), key=lambda i: scores[i], reverse=True)` is a
stable descending sort of indices: its strict total order compares scores
descending with ties broken by the original index. -/
def bm25_idx_before (scores : List ℚ) (i j : Nat) : Bool :=
  decide (scores.getD j 0 < scores.getD i 0)
    || (decide (scores.getD i 0 = scores.getD j 0) && decide (i ≤ j))

/-- The `RetrievedDocument` built for one surviving index in
`BM25Index.search`. -/
def bm25_build_result (doc : BM25Document) (score : ℚ) (rank : Nat) : RetrievedDocument where
  chunk_id := doc.chunk_id
  document_id := doc.doc_id
  content := doc.content
  score := min (score / 30) 1
  rank := rank
  filename := (doc.metadata.lookup "filename").getD ""
  document_type := (doc.metadata.lookup "document_type").getD ""
  title := doc.metadata.lookup "title"
  section_title := doc.metadata.lookup "section_title"
  chunk_index := 0

/-- `BM25Index.search` below the scoring call.  `rawScores` stands for the
output of `self.bm25.get_scores(query_tokens)` (the external `rank_bm25`
library), one score per indexed document; `queryTokens` for the tokenized
query.  An empty index or an empty token list returns no results.  The
Python loop `for rank, idx in enumerate(top_indices): if scores[idx] <= 0:
continue; results.append(...)` appends, in enumeration order, one result per
index with positive score, carrying its enumerate position as `rank`. -/
def bm25_results_core (documents : List BM25Document) (scores : List ℚ)
    (top_k : Nat) : List RetrievedDocument :=
  (((isort (bm25_idx_before scores) (List.range scores.length)).take top_k).enum).filterMap
    (fun p =>
      if scores.getD p.2 0 ≤ 0 then none
      else (documents.get? p.2).map (fun doc => bm25_build_result doc (scores.getD p.2 0) p.1))

def bm25_search (documents : List BM25Document) (rawScores : List ℚ)
    (queryTokens : List String) (top_k : Nat)
    (filter_dict : List (String × FilterVal)) : List RetrievedDocument :=
  if documents.isEmpty then [] else
  if queryTokens.isEmpty then [] else
  bm25_results_core documents
    (if filter_dict.isEmpty then rawScores
     else apply_filters documents rawScores filter_dict) top_k

theorem filterMap_all_some (f : α → Option β) (g : α → β) (l : List α)
    (h : ∀ x ∈ l, f x = some (g x)) : l.filterMap f = l.map g := by
  induction l with
  | nil => rfl
  | cons x xs ih =>
    rw [List.filterMap_cons, h x (List.mem_cons_self _ _), List.map_cons,
      ih (fun y hy => h y (List.mem_cons_of_mem _ hy))]

theorem filterMap_all_none (f : α → Option β) (l : List α)
    (h : ∀ x ∈ l, f x = none) : l.filterMap f = [] := by
  induction l with
  | nil => rfl
  | cons x xs ih =>
    rw [List.filterMap_cons, h x (List.mem_cons_self _ _),
      ih (fun y hy => h y (List.mem_cons_of_mem _ hy))]

theorem dropWhile_head_false (p : α → Bool) (l : List α) (y : α) (ys : List α)
    (h : l.dropWhile p = y :: ys) : p y = false := by
  induction l with
  | nil => cases h
  | cons x xs ih =>
    rw [List.dropWhile_cons] at h
    by_cases hp : p x = true
    · rw [if_pos hp] at h
      exact ih h
    · rw [if_neg hp] at h
      injection h with h1 h2
      subst h1
      exact Bool.eq_false_iff.mpr hp

theorem bm25_idx_before_total (scores : List ℚ) (i j : Nat) :
    bm25_idx_before scores i j = true ∨ bm25_idx_before scores j i = true := by
  unfold bm25_idx_before
  simp only [Bool.or_eq_true, Bool.and_eq_true, decide_eq_true_eq]
  rcases lt_trichotomy (scores.getD i 0) (scores.getD j 0) with h | h | h
  · right; exact Or.inl h
  · rcases Nat.le_total i j with hi | hi
    · left; exact Or.inr ⟨h, hi⟩
    · right; exact Or.inr ⟨h.symm, hi⟩
  · left; exact Or.inl h

theorem bm25_idx_before_trans (scores : List ℚ) (a b c : Nat)
    (h1 : bm25_idx_before scores a b = true) (h2 : bm25_idx_before scores b c = true) :
    bm25_idx_before scores a c = true := by
  unfold bm25_idx_before at h1 h2 ⊢
  simp only [Bool.or_eq_true, Bool.and_eq_true, decide_eq_true_eq] at h1 h2 ⊢
  rcases h1 with h1 | ⟨h1e, h1i⟩ <;> rcases h2 with h2 | ⟨h2e, h2i⟩
  · exact Or.inl (h2.trans h1)
  · exact Or.inl (h2e ▸ h1)
  · exact Or.inl (lt_of_lt_of_eq h2 h1e.symm)
  · exact Or.inr ⟨h1e.trans h2e, h1i.trans h2i⟩

theorem bm25_idx_before_le (scores : List ℚ) (a b : Nat)
    (h : bm25_idx_before scores a b = true) : scores.getD b 0 ≤ scores.getD a 0 := by
  unfold bm25_idx_before at h
  simp only [Bool.or_eq_true, Bool.and_eq_true, decide_eq_true_eq] at h
  rcases h with h | ⟨he, _⟩
  · exact le_of_lt h
  · exact le_of_eq he.symm

theorem get_congr {l₁ l₂ : List α} (e : l₁ = l₂) (i : Nat) (h : i < l₁.length) :
    l₁.get ⟨i, h⟩ = l₂.get ⟨i, e ▸ h⟩ := by
  subst e
  rfl

/-- Because `top_indices` is sorted descending by score, the skipped
(non-positive-score) indices form a suffix, so the appended results are
exactly one per leading positive-score index, with `rank` equal to its
enumerate position. -/
theorem enum_filterMap_pos_rank (documents : List BM25Document) (scores : List ℚ)
    (l : List Nat)
    (hmono : l.Pairwise (fun a b => scores.getD b 0 ≤ scores.getD a 0))
    (hlt : ∀ x ∈ l, x < documents.length) :
    l.enum.filterMap (fun p =>
        if scores.getD p.2 0 ≤ 0 then none
        else (documents.get? p.2).map (fun doc => bm25_build_result doc (scores.getD p.2 0) p.1))
      = (l.takeWhile (fun idx => !(decide (scores.getD idx 0 ≤ 0)))).enum.map
          (fun p => bm25_build_result ((documents.get? p.2).getD (BM25Document.mk "" "" "" []))
            (scores.getD p.2 0) p.1) := by
  have hsplit := List.takeWhile_append_dropWhile
    (p := (fun idx => !(decide (scores.getD idx 0 ≤ 0)))) (l := l)
  have hdrop : ∀ x ∈ l.dropWhile (fun idx => !(decide (scores.getD idx 0 ≤ 0))),
      scores.getD x 0 ≤ 0 := by
    cases hd : l.dropWhile (fun idx => !(decide (scores.getD idx 0 ≤ 0))) with
    | nil => intro x hx; cases hx
    | cons y ys =>
      intro x hx
      have hy : (fun idx => !(decide (scores.getD idx 0 ≤ 0))) y = false :=
        dropWhile_head_false _ l y ys hd
      have hy' : scores.getD y 0 ≤ 0 := by simpa using hy
      rcases List.mem_cons.mp hx with rfl | hx'
      · exact hy'
      · have hpd : (l.dropWhile (fun idx => !(decide (scores.getD idx 0 ≤ 0)))).Pairwise
            (fun a b => scores.getD b 0 ≤ scores.getD a 0) :=
          List.Pairwise.sublist (List.dropWhile_sublist _) hmono
        rw [hd, List.pairwise_cons] at hpd
        exact le_trans (hpd.1 x hx') hy'
  conv_lhs => rw [← hsplit]
  rw [List.enum_append, List.filterMap_append]
  have h2 : (List.enumFrom (l.takeWhile (fun idx => !(decide (scores.getD idx 0 ≤ 0)))).length
        (l.dropWhile (fun idx => !(decide (scores.getD idx 0 ≤ 0))))).filterMap
      (fun p =>
        if scores.getD p.2 0 ≤ 0 then none
        else (documents.get? p.2).map (fun doc => bm25_build_result doc (scores.getD p.2 0) p.1))
      = [] := by
    apply filterMap_all_none
    intro p hp
    obtain ⟨i, x⟩ := p
    have hx := List.mem_enumFrom hp
    have hxd : x ∈ l.dropWhile (fun idx => !(decide (scores.getD idx 0 ≤ 0))) := by
      rw [hx.2.2]
      exact List.getElem_mem (by omega)
    rw [if_pos (hdrop x hxd)]
  have h1 : (l.takeWhile (fun idx => !(decide (scores.getD idx 0 ≤ 0)))).enum.filterMap
      (fun p =>
        if scores.getD p.2 0 ≤ 0 then none
        else (documents.get? p.2).map (fun doc => bm25_build_result doc (scores.getD p.2 0) p.1))
      = (l.takeWhile (fun idx => !(decide (scores.getD idx 0 ≤ 0)))).enum.map
          (fun p => bm25_build_result ((documents.get? p.2).getD (BM25Document.mk "" "" "" []))
            (scores.getD p.2 0) p.1) := by
    apply filterMap_all_some
    intro p hp
    obtain ⟨i, x⟩ := p
    have hx := List.mem_enum (x := x) (i := i) hp
    have hxt : x ∈ l.takeWhile (fun idx => !(decide (scores.getD idx 0 ≤ 0))) := by
      rw [hx.2]
      exact List.getElem_mem hx.1
    have hxpos : ¬ scores.getD x 0 ≤ 0 := by
      have := List.mem_takeWhile_imp hxt
      simpa using this
    have hxl : x ∈ l := hsplit ▸ List.mem_append.mpr (Or.inl hxt)
    have hxlt : x < documents.length := hlt x hxl
    have hget : documents.get? x = some documents[x] := by
      rw [List.get?_eq_getElem?, List.getElem?_eq_getElem hxlt]
    rw [if_neg hxpos, hget]
    rfl
  rw [h1, h2, List.append_nil]

theorem bm25_results_core_rank (documents : List BM25Document) (scores : List ℚ)
    (top_k : Nat) (hslen : scores.length ≤ documents.length) :
    ∀ (i : Nat) (h : i < (bm25_results_core documents scores top_k).length),
      ((bm25_results_core documents scores top_k).get ⟨i, h⟩).rank = i := by
  have hmono : ((isort (bm25_idx_before scores) (List.range scores.length)).take top_k).Pairwise
      (fun a b => scores.getD b 0 ≤ scores.getD a 0) :=
    List.Pairwise.sublist (List.take_sublist _ _)
      ((isort_pairwise (bm25_idx_before scores) (bm25_idx_before_total scores)
        (bm25_idx_before_trans scores) _).imp
        (fun h => bm25_idx_before_le scores _ _ h))
  have hlt : ∀ x ∈ (isort (bm25_idx_before scores) (List.range scores.length)).take top_k,
      x < documents.length := by
    intro x hx
    have h1 : x ∈ isort (bm25_idx_before scores) (List.range scores.length) :=
      (List.take_sublist _ _).subset hx
    have h2 : x ∈ List.range scores.length :=
      (isort_perm (bm25_idx_before scores) _).mem_iff.mp h1
    rw [List.mem_range] at h2
    omega
  have hcore : bm25_results_core documents scores top_k
      = (((isort (bm25_idx_before scores) (List.range scores.length)).take top_k).takeWhile
          (fun idx => !(decide (scores.getD idx 0 ≤ 0)))).enum.map
          (fun p => bm25_build_result ((documents.get? p.2).getD (BM25Document.mk "" "" "" []))
            (scores.getD p.2 0) p.1) := by
    unfold bm25_results_core
    exact enum_filterMap_pos_rank documents scores _ hmono hlt
  intro i h
  rw [get_congr hcore i h, List.get_eq_getElem, List.getElem_map, List.getElem_enum]
  rfl

/-- `BM25Index.search` gives its results the dense 0-based ranks
`0, 1, 2, ...` in order. -/
theorem bm25_search_rank (documents : List BM25Document) (rawScores : List ℚ)
    (queryTokens : List String) (top_k : Nat) (filter_dict : List (String × FilterVal))
    (hlen : rawScores.length = documents.length) :
    ∀ (i : Nat) (h : i < (bm25_search documents rawScores queryTokens top_k filter_dict).length),
      ((bm25_search documents rawScores queryTokens top_k filter_dict).get ⟨i, h⟩).rank = i := by
  intro i h
  by_cases hdoc : documents.isEmpty = true
  · exfalso
    have he : bm25_search documents rawScores queryTokens top_k filter_dict = [] := by
      unfold bm25_search
      rw [if_pos hdoc]
    rw [he] at h
    exact Nat.not_lt_zero i h
  by_cases hqt : queryTokens.isEmpty = true
  · exfalso
    have he : bm25_search documents rawScores queryTokens top_k filter_dict = [] := by
      unfold bm25_search
      rw [if_neg hdoc, if_pos hqt]
    rw [he] at h
    exact Nat.not_lt_zero i h
  have he : bm25_search documents rawScores queryTokens top_k filter_dict
      = bm25_results_core documents
          (if filter_dict.isEmpty then rawScores
           else apply_filters documents rawScores filter_dict) top_k := by
    unfold bm25_search
    rw [if_neg hdoc, if_neg hqt]
  rw [get_congr he i h]
  apply bm25_results_core_rank
  split
  · exact le_of_eq hlen
  · rw [apply_filters, List.length_zipWith]
    omega

/-- Any result surviving a `document_type` list filter carries a document
type from the allowed list: a document whose type is outside it gets score 0
and is skipped. -/
theorem bm25_search_document_type (documents : List BM25Document) (rawScores : List ℚ)
    (queryTokens : List String) (top_k : Nat) (allowed : List String)
    (rest : List (String × FilterVal)) (d : RetrievedDocument)
    (hd : d ∈ bm25_search documents rawScores queryTokens top_k
      (("document_type", FilterVal.many allowed) :: rest)) :
    d.document_type ∈ allowed := by
  unfold bm25_search at hd
  by_cases hdoc : documents.isEmpty = true
  · rw [if_pos hdoc] at hd; cases hd
  rw [if_neg hdoc] at hd
  by_cases hqt : queryTokens.isEmpty = true
  · rw [if_pos hqt] at hd; cases hd
  rw [if_neg hqt] at hd
  rw [if_neg (by rw [List.isEmpty_cons]; exact Bool.false_ne_true)] at hd
  unfold bm25_results_core at hd
  rcases List.mem_filterMap.mp hd with ⟨p, hp, hfp⟩
  by_cases hle : (apply_filters documents rawScores
      (("document_type", FilterVal.many allowed) :: rest)).getD p.2 0 ≤ 0
  · rw [if_pos hle] at hfp; cases hfp
  rw [if_neg hle] at hfp
  cases hget : documents.get? p.2 with
  | none => rw [hget] at hfp; cases hfp
  | some doc =>
    rw [hget, Option.map_some'] at hfp
    have hbuild := Option.some.inj hfp
    have hplt : p.2 < (apply_filters documents rawScores
        (("document_type", FilterVal.many allowed) :: rest)).length := by
      by_contra hge
      push_neg at hge
      apply hle
      rw [List.getD_eq_getElem?_getD, List.getElem?_eq_none hge]
      exact le_refl 0
    have hplt2 : p.2 < documents.length := by
      have hz := hplt
      rw [apply_filters, List.length_zipWith] at hz
      omega
    have hpltr : p.2 < rawScores.length := by
      have hz := hplt
      rw [apply_filters, List.length_zipWith] at hz
      omega
    have hdoc2 : doc = documents[p.2] := by
      rw [List.get?_eq_getElem?, List.getElem?_eq_getElem hplt2] at hget
      exact (Option.some.inj hget).symm
    have hval : (apply_filters documents rawScores
        (("document_type", FilterVal.many allowed) :: rest)).getD p.2 0
        = (if bm25_doc_passes documents[p.2]
            (("document_type", FilterVal.many allowed) :: rest) then
            rawScores.get ⟨p.2, hpltr⟩
          else 0) := by
      rw [List.getD_eq_getElem?_getD, List.getElem?_eq_getElem hplt, Option.getD_some]
      exact List.getElem_zipWith
    by_cases hpass : bm25_doc_passes documents[p.2]
        (("document_type", FilterVal.many allowed) :: rest) = true
    · have hhead := hpass
      unfold bm25_doc_passes at hhead
      rw [List.all_cons, Bool.and_eq_true] at hhead
      have hh := hhead.1
      dsimp only at hh
      cases hlk : (documents[p.2] : BM25Document).metadata.lookup "document_type" with
      | none => rw [hlk] at hh; cases hh
      | some v =>
        rw [hlk] at hh
        have hv : v ∈ allowed := by
          have : allowed.elem v = true := hh
          exact List.elem_iff.mp this
        rw [← hbuild]
        show ((doc.metadata.lookup "document_type").getD "") ∈ allowed
        rw [hdoc2, hlk, Option.getD_some]
        exact hv
    · rw [if_neg hpass] at hval
      exact absurd hval.le hle

theorem allowed_types_subset (user_role : UserRole) (document_types : Option (List String))
    (t : String) (ht : t ∈ allowed_types user_role document_types) :
    t ∈ get_accessible_document_types user_role := by
  cases document_types with
  | none => exact ht
  | some l =>
    simp only [allowed_types] at ht
    by_cases hl : l.isEmpty = true
    · rw [if_pos hl] at ht
      exact ht
    · rw [if_neg hl] at ht
      have h2 := (List.mem_filter.mp ht).2
      exact List.elem_iff.mp h2

/-- C5: `HybridRetriever.retrieve` is total over source outcomes (modelled by
the `Except` parameters) — it never raises for a retrieval-source outage.
If the dense source throws it returns the sparse results up to `top_k`
(and symmetrically); if both fail, or both return empty, it returns `[]`.
The surviving results keep 0-based ranks starting at 0: the position-ranked
property is inherited from the source list, and `BM25Index.search` (the
sparse source) always emits position-ranked results. -/
theorem C5_retrieve_fault_tolerance (cfg : HybridSearchConfig) (top_k : Nat)
    (dense sparse : List RetrievedDocument)
    (hud : cfg.use_dense = true) (hus : cfg.use_sparse = true) :
    (retrieveResults cfg top_k (.error ()) (.ok sparse) = sparse.take top_k)
    ∧ ((∀ (i : Nat) (hi : i < sparse.length), (sparse.get ⟨i, hi⟩).rank = i) →
        ∀ (i : Nat) (h : i < (retrieveResults cfg top_k (.error ()) (.ok sparse)).length),
          ((retrieveResults cfg top_k (.error ()) (.ok sparse)).get ⟨i, h⟩).rank = i)
    ∧ (retrieveResults cfg top_k (.ok dense) (.error ()) = dense.take top_k)
    ∧ (retrieveResults cfg top_k (.error ()) (.error ()) = [])
    ∧ (retrieveResults cfg top_k (.ok []) (.ok []) = [])
    ∧ (∀ (documents : List BM25Document) (rawScores : List ℚ) (queryTokens : List String)
        (tk : Nat) (filter_dict : List (String × FilterVal)),
        rawScores.length = documents.length →
        ∀ (i : Nat) (h : i < (bm25_search documents rawScores queryTokens tk filter_dict).length),
          ((bm25_search documents rawScores queryTokens tk filter_dict).get ⟨i, h⟩).rank = i) := by
  have h1 : retrieveResults cfg top_k (.error ()) (.ok sparse) = sparse.take top_k := by
    cases sparse with
    | nil => simp [retrieveResults, hud, hus]
    | cons a l => simp [retrieveResults, hud, hus]
  refine ⟨h1, ?_, ?_, by simp [retrieveResults, hud, hus], by simp [retrieveResults, hud, hus],
    fun documents rawScores queryTokens tk filter_dict hlen =>
      bm25_search_rank documents rawScores queryTokens tk filter_dict hlen⟩
  · intro hr i h
    rw [get_congr h1 i h, List.get_eq_getElem, List.getElem_take]
    have hlen : i < sparse.length := by
      have h2 := h1 ▸ h
      rw [List.length_take] at h2
      omega
    have := hr i hlen
    rw [List.get_eq_getElem] at this
    exact this
  · cases dense with
    | nil => simp [retrieveResults, hud, hus]
    | cons a l => simp [retrieveResults, hud, hus]

/-- Witness for C5 on a concrete sparse result list. -/
theorem C5_witness :
    (defaultHybridConfig.use_dense = true ∧ defaultHybridConfig.use_sparse = true)
    ∧ ((retrieveResults defaultHybridConfig 5 (.error ()) (.ok [sampleDoc "S" 0])
          = [sampleDoc "S" 0].take 5)
    ∧ ((∀ (i : Nat) (hi : i < [sampleDoc "S" 0].length),
          (([sampleDoc "S" 0] : List RetrievedDocument).get ⟨i, hi⟩).rank = i) →
        ∀ (i : Nat) (h : i < (retrieveResults defaultHybridConfig 5 (.error ())
            (.ok [sampleDoc "S" 0])).length),
          ((retrieveResults defaultHybridConfig 5 (.error ())
            (.ok [sampleDoc "S" 0])).get ⟨i, h⟩).rank = i)
    ∧ (retrieveResults defaultHybridConfig 5 (.ok [sampleDoc "D" 0]) (.error ())
        = [sampleDoc "D" 0].take 5)
    ∧ (retrieveResults defaultHybridConfig 5 (.error ()) (.error ()) = [])
    ∧ (retrieveResults defaultHybridConfig 5 (.ok []) (.ok []) = [])
    ∧ (∀ (documents : List BM25Document) (rawScores : List ℚ) (queryTokens : List String)
        (tk : Nat) (filter_dict : List (String × FilterVal)),
        rawScores.length = documents.length →
        ∀ (i : Nat) (h : i < (bm25_search documents rawScores queryTokens tk filter_dict).length),
          ((bm25_search documents rawScores queryTokens tk filter_dict).get ⟨i, h⟩).rank = i)) :=
  ⟨⟨rfl, rfl⟩,
    C5_retrieve_fault_tolerance defaultHybridConfig 5 [sampleDoc "D" 0] [sampleDoc "S" 0] rfl rfl⟩

/-- C6 (amended): the document-type set passed to both retrieval sources is
always a subset of the role's accessible set; when the caller's explicit
filter is non-empty, it is exactly the intersection of the filter with the
accessible set (an explicit empty filter is falsy in Python and behaves like
no filter); and a caller with the analyst role only ever sees analyst-level
document types — in particular the sparse source only returns documents
whose type is in the passed set. -/
theorem C6_role_filter_narrows (user_role : UserRole) :
    (∀ (document_types : Option (List String)) (t : String),
        t ∈ allowed_types user_role document_types →
        t ∈ get_accessible_document_types user_role)
    ∧ (∀ (l : List String), l ≠ [] →
        ∀ t, t ∈ allowed_types user_role (some l) ↔
          (t ∈ l ∧ t ∈ get_accessible_document_types user_role))
    ∧ (∀ (document_types : Option (List String)) (t : String),
        t ∈ allowed_types UserRole.analyst document_types →
        get_document_access_level t = UserRole.analyst)
    ∧ (∀ (document_types : Option (List String)) (documents : List BM25Document)
        (rawScores : List ℚ) (queryTokens : List String) (top_k : Nat)
        (rest : List (String × FilterVal)) (d : RetrievedDocument),
        d ∈ bm25_search documents rawScores queryTokens top_k
          (("document_type",
            FilterVal.many (allowed_types UserRole.analyst document_types)) :: rest) →
        get_document_access_level d.document_type = UserRole.analyst) := by
  have hana : ∀ t ∈ get_accessible_document_types UserRole.analyst,
      get_document_access_level t = UserRole.analyst := by decide
  refine ⟨fun dts t ht => allowed_types_subset user_role dts t ht, ?_, ?_, ?_⟩
  · intro l hl t
    simp only [allowed_types]
    rw [if_neg (fun he => hl (List.isEmpty_iff.mp he))]
    constructor
    · intro ht
      rcases List.mem_filter.mp ht with ⟨h1, h2⟩
      exact ⟨h1, List.elem_iff.mp h2⟩
    · intro ht
      exact List.mem_filter.mpr ⟨ht.1, List.elem_iff.mpr ht.2⟩
  · intro dts t ht
    exact hana t (allowed_types_subset UserRole.analyst dts t ht)
  · intro dts documents rawScores queryTokens top_k rest d hd
    have hmem := bm25_search_document_type documents rawScores queryTokens top_k _ rest d hd
    exact hana d.document_type (allowed_types_subset UserRole.analyst dts _ hmem)

/-- C6 counterexample: for the explicit empty filter `[]` the passed set is
the full accessible set of the role, not the (empty) intersection of the
supplied filter with the accessible set — Python's `if document_types:`
treats `[]` as absent. -/
theorem C6_counterexample :
    allowed_types UserRole.analyst (some [])
        = ["playbook", "guideline", "template", "training"]
      ∧ allowed_types UserRole.analyst (some [])
        ≠ ([] : List String).filter
            (fun t => (get_role_filter UserRole.analyst).contains t) := by
  constructor
  · decide
  · decide

/-- Witness for C6 at a concrete non-empty filter for the consultant role. -/
theorem C6_witness :
    ((["playbook", "fee_structure"] : List String) ≠ [])
    ∧ (∀ t, t ∈ allowed_types UserRole.consultant (some ["playbook", "fee_structure"]) ↔
        (t ∈ (["playbook", "fee_structure"] : List String)
          ∧ t ∈ get_accessible_document_types UserRole.consultant)) :=
  ⟨by decide, (C6_role_filter_narrows UserRole.consultant).2.1
    ["playbook", "fee_structure"] (by decide)⟩

/-! ## app/workflows/orchestrator.py — `WorkflowOrchestrator._parse_response`

The json parser (`json.loads`) and the pydantic schema validation
(`get_output_model(task).model_validate` followed by `model_dump`) are
external collaborators, so they appear as explicit function parameters over
an arbitrary parsed-JSON type `J`; `Except.error` carries `str(e)`.  Because
the embedding is a function, re-parsing the same string is deterministic,
exactly like `json.loads`. -/

def braceOpen : Char := Char.ofNat 123

def braceClose : Char := Char.ofNat 125

/-- Python `str.find` for a single character: lowest index or -1. -/
def pyFindChar (l : List Char) (c : Char) : Int :=
  match l.findIdx? (fun x => x = c) with
  | some i => (i : Int)
  | none => -1

/-- Python `str.rfind` for a substring: highest index at which `sub` starts,
or -1. -/
def pyRFindSub (l sub : List Char) : Int :=
  match ((List.range (l.length + 1)).filter (fun i => sub.isPrefixOf (l.drop i))).getLast? with
  | some i => (i : Int)
  | none => -1

/-- Python slice `l[a:b]` for non-negative bounds. -/
def pySlice (l : List Char) (a b : Nat) : List Char := (l.take b).drop a

/-- The code-fence stripping step of `_parse_response`: when the cleaned
text starts with a fence, keep what lies between the end of the opening
fence line and the last fence, stripped; `find` returning -1 (no newline)
still slices from index 0 because of the `+ 1`. -/
def strip_code_fence (cleaned : List Char) : List Char :=
  if ("```".data).isPrefixOf cleaned then
    let first_newline : Int := pyFindChar cleaned '\n'
    let last_fence : Int := pyRFindSub cleaned "```".data
    if first_newline < last_fence then
      pyStripL (pySlice cleaned (first_newline + 1).toNat last_fence.toNat)
    else cleaned
  else cleaned

/-- The `re.search(r"\x7b[\s\S]*\x7d", cleaned)` extraction: the leftmost
match of the pattern starts at the first opening brace and, because the
quantifier is greedy, ends at the last closing brace of the whole string
(which lies after the first opening brace exactly when any closing brace
does). -/
def extract_json_span (l : List Char) : Option (List Char) :=
  match l.findIdx? (fun x => x = braceOpen) with
  | none => none
  | some i =>
      match l.reverse.findIdx? (fun x => x = braceClose) with
      | none => none
      | some rj =>
          let j := l.length - 1 - rj
          if i < j then some (pySlice l i (j + 1)) else none

/-- The structured response objects `_parse_response` can return, one
constructor per `return` statement in the source. -/
inductive ParseResult (J : Type) where
  | raw_passthrough (raw_response : String)
  | validated (output : J)
  | extracted (output : J)
  | narrative (summary raw_response parse_error : String)
  | unvalidated (output : J)
  | validation_note (summary validation_error : String)

/-- `WorkflowOrchestrator._parse_response`.  Total in `raw_response`: every
model output maps to some `ParseResult` — the stage never raises. -/
def _parse_response (J : Type) (structured_output_enabled : Bool)
    (jsonLoads : String → Except String J) (validate : J → Except String J)
    (raw_response : String) : ParseResult J :=
  if !structured_output_enabled then .raw_passthrough raw_response else
  let cleaned := String.mk (strip_code_fence (pyStripL raw_response.data))
  match jsonLoads cleaned with
  | .ok parsed =>
      match validate parsed with
      | .ok validated => .validated validated
      | .error e =>
          match jsonLoads cleaned with
          | .ok p => .unvalidated p
          | .error _ => .validation_note (String.mk (cleaned.data.take 500)) e
  | .error e =>
      match extract_json_span cleaned.data with
      | some span =>
          match jsonLoads (String.mk span) with
          | .ok p => .extracted p
          | .error _ => .narrative (String.mk (cleaned.data.take 500)) cleaned e
      | none => .narrative (String.mk (cleaned.data.take 500)) cleaned e

/-- C2 (amended): on schema-validation failure (valid JSON, wrong shape),
`_parse_response` returns the parsed JSON as-is, with no validation-error
annotation: the annotated branch is unreachable, because re-parsing the
same cleaned string (`return json.loads(cleaned)`) deterministically
succeeds again. -/
theorem C2_validation_failure_returns_parsed (J : Type)
    (jsonLoads : String → Except String J) (validate : J → Except String J)
    (raw_response : String) (p : J) (e : String)
    (hparse : jsonLoads (String.mk (strip_code_fence (pyStripL raw_response.data))) = .ok p)
    (hval : validate p = .error e) :
    _parse_response J true jsonLoads validate raw_response = ParseResult.unvalidated p
      ∧ ∀ (s err : String),
          _parse_response J true jsonLoads validate raw_response
            ≠ ParseResult.validation_note s err := by
  have h : _parse_response J true jsonLoads validate raw_response = ParseResult.unvalidated p := by
    unfold _parse_response
    rw [if_neg (by simp)]
    dsimp only
    rw [hparse]
    dsimp only
    rw [hval]
  exact ⟨h, fun s err hne => by rw [h] at hne; exact ParseResult.noConfusion hne⟩

def jsonOracleB : String → Except String Unit :=
  fun s => if s = "\x7b\"a\": 1\x7d" then .ok () else .error "Expecting value"

def validateFail : Unit → Except String Unit :=
  fun _ => .error "1 validation error for output model"

/-- C2 counterexample: for the model output `\x7b"a": 1\x7d` (valid JSON that
fails schema validation), the parse stage returns the bare parsed JSON; no
returned object carries a validation-error note, contradicting the claim as
stated. -/
theorem C2_counterexample :
    _parse_response Unit true jsonOracleB validateFail "\x7b\"a\": 1\x7d"
        = ParseResult.unvalidated ()
      ∧ ∀ (s err : String),
          _parse_response Unit true jsonOracleB validateFail "\x7b\"a\": 1\x7d"
            ≠ ParseResult.validation_note s err := by
  have h : _parse_response Unit true jsonOracleB validateFail "\x7b\"a\": 1\x7d"
      = ParseResult.unvalidated () := by rfl
  exact ⟨h, fun s err hne => by rw [h] at hne; exact ParseResult.noConfusion hne⟩

/-- Witness for C2 at the concrete failing-validation output. -/
theorem C2_witness :
    (jsonOracleB (String.mk (strip_code_fence
        (pyStripL ("\x7b\"a\": 1\x7d" : String).data))) = .ok ()
      ∧ validateFail () = .error "1 validation error for output model")
    ∧ (_parse_response Unit true jsonOracleB validateFail "\x7b\"a\": 1\x7d"
        = ParseResult.unvalidated ()
      ∧ ∀ (s err : String),
          _parse_response Unit true jsonOracleB validateFail "\x7b\"a\": 1\x7d"
            ≠ ParseResult.validation_note s err) :=
  ⟨⟨rfl, rfl⟩, C2_validation_failure_returns_parsed Unit jsonOracleB validateFail
    "\x7b\"a\": 1\x7d" () "1 validation error for output model" rfl rfl⟩

/-- C8 (amended): the parse stage is total over model outputs — malformed or
truncated JSON never raises.  When the cleaned text does not parse, the
result is (a) the extracted brace-delimited span's JSON when that parses —
with no parse-error note — and (b) otherwise the narrative object carrying
the 500-character summary, the cleaned raw text, and the parse-error note. -/
theorem C8_parse_degradation_ladder (J : Type)
    (jsonLoads : String → Except String J) (validate : J → Except String J)
    (raw_response e : String)
    (hfail : jsonLoads (String.mk (strip_code_fence (pyStripL raw_response.data))) = .error e) :
    (∃ r, _parse_response J true jsonLoads validate raw_response = r)
    ∧ (extract_json_span (strip_code_fence (pyStripL raw_response.data)) = none →
        _parse_response J true jsonLoads validate raw_response
          = ParseResult.narrative
              (String.mk ((strip_code_fence (pyStripL raw_response.data)).take 500))
              (String.mk (strip_code_fence (pyStripL raw_response.data))) e)
    ∧ (∀ span, extract_json_span (strip_code_fence (pyStripL raw_response.data)) = some span →
        ∀ e2, jsonLoads (String.mk span) = .error e2 →
        _parse_response J true jsonLoads validate raw_response
          = ParseResult.narrative
              (String.mk ((strip_code_fence (pyStripL raw_response.data)).take 500))
              (String.mk (strip_code_fence (pyStripL raw_response.data))) e)
    ∧ (∀ span p, extract_json_span (strip_code_fence (pyStripL raw_response.data)) = some span →
        jsonLoads (String.mk span) = .ok p →
        _parse_response J true jsonLoads validate raw_response = ParseResult.extracted p) := by
  refine ⟨⟨_, rfl⟩, ?_, ?_, ?_⟩
  · intro hspan
    unfold _parse_response
    rw [if_neg (by simp)]
    dsimp only
    rw [hfail]
    dsimp only
    rw [hspan]
  · intro span hspan e2 he2
    unfold _parse_response
    rw [if_neg (by simp)]
    dsimp only
    rw [hfail]
    dsimp only
    rw [hspan]
    dsimp only
    rw [he2]
  · intro span p hspan hp
    unfold _parse_response
    rw [if_neg (by simp)]
    dsimp only
    rw [hfail]
    dsimp only
    rw [hspan]
    dsimp only
    rw [hp]

def jsonOracleA : String → Except String Unit :=
  fun s => if s = "\x7b\"x\": 1\x7d" then .ok ()
    else .error "Expecting value: line 1 column 1 (char 0)"

/-- C8 counterexample: the model output `note: \x7b"x": 1\x7d` is malformed
JSON as a whole, yet the parse stage returns the extracted span's JSON with
no parse-error note and no raw text, contradicting the claim that every
malformed output yields a response containing both. -/
theorem C8_counterexample :
    _parse_response Unit true jsonOracleA (fun u => .ok u) "note: \x7b\"x\": 1\x7d"
        = ParseResult.extracted ()
      ∧ ∀ (s r err : String),
          _parse_response Unit true jsonOracleA (fun u => .ok u) "note: \x7b\"x\": 1\x7d"
            ≠ ParseResult.narrative s r err := by
  have h : _parse_response Unit true jsonOracleA (fun u => .ok u) "note: \x7b\"x\": 1\x7d"
      = ParseResult.extracted () := by rfl
  exact ⟨h, fun s r err hne => by rw [h] at hne; exact ParseResult.noConfusion hne⟩

/-- Witness for C8 at a concrete truncated model output (no closing brace,
so span extraction fails and the narrative fallback carries the note). -/
theorem C8_witness :
    (jsonOracleA (String.mk (strip_code_fence
        (pyStripL ("truncated \x7b\"x\": 1" : String).data)))
      = .error "Expecting value: line 1 column 1 (char 0)")
    ∧ ((∃ r, _parse_response Unit true jsonOracleA (fun u => .ok u)
          "truncated \x7b\"x\": 1" = r)
    ∧ (extract_json_span (strip_code_fence
          (pyStripL ("truncated \x7b\"x\": 1" : String).data)) = none →
        _parse_response Unit true jsonOracleA (fun u => .ok u) "truncated \x7b\"x\": 1"
          = ParseResult.narrative
              (String.mk ((strip_code_fence
                (pyStripL ("truncated \x7b\"x\": 1" : String).data)).take 500))
              (String.mk (strip_code_fence
                (pyStripL ("truncated \x7b\"x\": 1" : String).data)))
              "Expecting value: line 1 column 1 (char 0)")
    ∧ (∀ span, extract_json_span (strip_code_fence
          (pyStripL ("truncated \x7b\"x\": 1" : String).data)) = some span →
        ∀ e2, jsonOracleA (String.mk span) = .error e2 →
        _parse_response Unit true jsonOracleA (fun u => .ok u) "truncated \x7b\"x\": 1"
          = ParseResult.narrative
              (String.mk ((strip_code_fence
                (pyStripL ("truncated \x7b\"x\": 1" : String).data)).take 500))
              (String.mk (strip_code_fence
                (pyStripL ("truncated \x7b\"x\": 1" : String).data)))
              "Expecting value: line 1 column 1 (char 0)")
    ∧ (∀ span p, extract_json_span (strip_code_fence
          (pyStripL ("truncated \x7b\"x\": 1" : String).data)) = some span →
        jsonOracleA (String.mk span) = .ok p →
        _parse_response Unit true jsonOracleA (fun u => .ok u) "truncated \x7b\"x\": 1"
          = ParseResult.extracted p)) :=
  ⟨rfl, C8_parse_degradation_ladder Unit jsonOracleA (fun u => .ok u)
    "truncated \x7b\"x\": 1" "Expecting value: line 1 column 1 (char 0)" rfl⟩

/-! ## app/workflows/intent.py

The rule tables compile Python regexes; here a small regex interpreter over
`List Char` gives them semantics.  All `INTENT_PATTERNS` regexes are
compiled with `re.I` and written in lower case, so matching the lower-cased
query against the patterns as written is equivalent (ASCII-wise) to
Python's case-insensitive search; the one flag-less pattern, `\?$`, contains
no cased characters.  Pattern weights are the Python floats 1.0 … 0.2 —
one-decimal values compared exactly — stored as integer tenths so weight
comparisons are the corresponding integer comparisons; a confidence is a
weight divided by 10. -/

inductive TaskType where
  | question_answer
  | summarize_client
  | client_background
  | risk_analysis
  | opportunity_analysis
  | draft_recommendations
  | action_items
  | executive_summary
  | talking_points
  | compare_approaches
  | research_topic
  deriving DecidableEq, Repr

structure IntentMatch where
  task_type : TaskType
  confidence : ℚ
  matched_patterns : List String
  method : String
  deriving Repr

/-- Regular expressions, enough for the intent tables: character classes,
literals, alternation, concatenation, Kleene star, word boundary, and the
`^`/`$` anchors (no MULTILINE flag is used, so `^` matches only at the
start and `$` at the end or before a final newline). -/
inductive RE where
  | eps : RE
  | cls (p : Char → Bool) : RE
  | str (s : List Char) : RE
  | alt (a b : RE) : RE
  | seq (a b : RE) : RE
  | star (r : RE) : RE
  | wb : RE
  | bol : RE
  | eol : RE

/-- Python `\w` over ASCII. -/
def isWordChar (c : Char) : Bool := c.isAlphanum || c = '_'

/-- Python `\b`: a position with a word character on exactly one side. -/
def wordBoundary (t : List Char) (i : Nat) : Bool :=
  (if i = 0 then false else isWordChar (t.getD (i - 1) ' '))
    != isWordChar (t.getD i ' ')

/-- All end positions of a match of `re` starting at position `i` of `t`.
`fuel` bounds the recursion; any fuel exceeding the pattern's nesting depth
plus the text length is enough, since every star iteration consumes at
least one character. -/
def reMatches (t : List Char) : Nat → RE → Nat → List Nat
  | 0, _, _ => []
  | fuel + 1, re, i =>
    match re with
    | .eps => [i]
    | .cls p =>
        match t.get? i with
        | some c => if p c then [i + 1] else []
        | none => []
    | .str s => if s.isPrefixOf (t.drop i) then [i + s.length] else []
    | .alt a b => reMatches t fuel a i ++ reMatches t fuel b i
    | .seq a b => (reMatches t fuel a i).flatMap (fun j => reMatches t fuel b j)
    | .star r =>
        i :: ((reMatches t fuel r i).filter (fun j => i < j)).flatMap
          (fun j => reMatches t fuel (.star r) j)
    | .wb => if wordBoundary t i then [i] else []
    | .bol => if i = 0 then [i] else []
    | .eol =>
        if i = t.length then [i]
        else if i + 1 = t.length ∧ t.getD i ' ' = '\n' then [i] else []

/-- Python `re.search`: does the pattern match anywhere in the text? -/
def reSearch (re : RE) (t : List Char) : Bool :=
  (List.range (t.length + 1)).any (fun i => !(reMatches t (t.length + 100) re i).isEmpty)

def lit (s : String) : RE := .str s.data

def cat (l : List RE) : RE := l.foldr RE.seq .eps

/-- A class matching nothing, the unit of alternation. -/
def reFail : RE := .cls (fun _ => false)

def alts (l : List RE) : RE := l.foldr RE.alt reFail

def wsp : RE := .cls pyIsSpace

def ws1 : RE := cat [wsp, .star wsp]

def dot : RE := .cls (fun c => c != '\n')

def dotStar : RE := .star dot

def opt (r : RE) : RE := .alt r .eps

/-- `INTENT_PATTERNS`, in source order: for each task an ordered list of
(compiled regex, weight in tenths, pattern source text). -/
def INTENT_PATTERNS : List (TaskType × List (RE × Nat × String)) :=
  [ (.summarize_client,
      [ (cat [.wb, lit "summar", alts [lit "y", lit "ize", lit "ise"], .wb, dotStar,
          .wb, lit "client", .wb], 10, "\\bsummar(y|ize|ise)\\b.*\\bclient\\b"),
        (cat [.wb, lit "client", .wb, dotStar, .wb, lit "summar",
          alts [lit "y", lit "ize", lit "ise"], .wb], 10, "\\bclient\\b.*\\bsummar(y|ize|ise)\\b"),
        (cat [.wb, lit "client", ws1, alts [lit "background", lit "overview", lit "profile"], .wb],
          9, "\\bclient\\s+(background|overview|profile)\\b"),
        (cat [.wb, lit "tell", ws1, lit "me", ws1, lit "about", .wb, dotStar,
          .wb, lit "client", .wb], 8, "\\btell\\s+me\\s+about\\b.*\\bclient\\b"),
        (cat [.wb, lit "who", ws1, lit "is", .wb, dotStar, .wb, lit "client", .wb],
          7, "\\bwho\\s+is\\b.*\\bclient\\b") ]),
    (.client_background,
      [ (cat [.wb, lit "background", .wb, dotStar, .wb, lit "client", .wb],
          10, "\\bbackground\\b.*\\bclient\\b"),
        (cat [.wb, lit "client", .wb, dotStar, .wb, lit "history", .wb],
          9, "\\bclient\\b.*\\bhistory\\b"),
        (cat [.wb, lit "previous", ws1, lit "engagement", opt (lit "s"), .wb],
          8, "\\bprevious\\s+engagements?\\b") ]),
    (.risk_analysis,
      [ (cat [.wb, lit "risk", ws1, alts [lit "analysis", lit "assessment", lit "evaluation"], .wb],
          10, "\\brisk\\s+(analysis|assessment|evaluation)\\b"),
        (cat [.wb, lit "identify", .wb, dotStar, .wb, lit "risk", opt (lit "s"), .wb],
          10, "\\bidentify\\b.*\\brisks?\\b"),
        (cat [.wb, lit "what", ws1, lit "are", ws1, lit "the", ws1, lit "risk",
          opt (lit "s"), .wb], 9, "\\bwhat\\s+are\\s+the\\s+risks?\\b"),
        (cat [.wb, lit "risk", ws1, lit "factor", opt (lit "s"), .wb],
          8, "\\brisk\\s+factors?\\b"),
        (cat [.wb, lit "potential", ws1,
          alts [cat [lit "issue", opt (lit "s")], cat [lit "problem", opt (lit "s")],
            cat [lit "risk", opt (lit "s")]], .wb],
          7, "\\bpotential\\s+(issues?|problems?|risks?)\\b") ]),
    (.opportunity_analysis,
      [ (cat [.wb, lit "opportunit", alts [lit "y", lit "ies"], ws1, lit "analysis", .wb],
          10, "\\bopportunit(y|ies)\\s+analysis\\b"),
        (cat [.wb, lit "identify", .wb, dotStar, .wb, lit "opportunit",
          alts [lit "y", lit "ies"], .wb], 10, "\\bidentify\\b.*\\bopportunit(y|ies)\\b"),
        (cat [.wb, lit "growth", ws1, lit "opportunit", alts [lit "y", lit "ies"], .wb],
          9, "\\bgrowth\\s+opportunit(y|ies)\\b"),
        (cat [.wb, lit "potential", ws1, lit "opportunit", alts [lit "y", lit "ies"], .wb],
          8, "\\bpotential\\s+opportunit(y|ies)\\b") ]),
    (.draft_recommendations,
      [ (cat [.wb, alts [lit "draft", lit "write", lit "create"], .wb, dotStar,
          .wb, lit "recommendation", opt (lit "s"), .wb],
          10, "\\b(draft|write|create)\\b.*\\brecommendations?\\b"),
        (cat [.wb, lit "recommend", opt (lit "ation"), opt (lit "s"), .wb, dotStar,
          .wb, alts [lit "for", lit "to"], .wb],
          9, "\\brecommend(ation)?s?\\b.*\\b(for|to)\\b"),
        (cat [.wb, lit "what", ws1,
          alts [cat [lit "do", ws1, lit "you"],
            cat [lit "should", ws1, alts [lit "we", lit "i"]]],
          ws1, lit "recommend", .wb],
          9, "\\bwhat\\s+(do\\s+you|should\\s+(we|I))\\s+recommend\\b"),
        (cat [.wb, lit "suggestion", opt (lit "s"), .wb, dotStar, .wb, lit "for", .wb],
          7, "\\bsuggestions?\\b.*\\bfor\\b"),
        (cat [.wb, lit "what", ws1, lit "should", ws1,
          alts [lit "we", lit "they", lit "i"], ws1, lit "do", .wb],
          7, "\\bwhat\\s+should\\s+(we|they|I)\\s+do\\b") ]),
    (.action_items,
      [ (cat [.wb, lit "action", ws1, lit "item", opt (lit "s"), .wb],
          10, "\\baction\\s+items?\\b"),
        (cat [.wb, lit "next", ws1, lit "step", opt (lit "s"), .wb],
          9, "\\bnext\\s+steps?\\b"),
        (cat [.wb, lit "to", opt (lit "-"), lit "do", ws1,
          alts [lit "list", cat [lit "item", opt (lit "s")]], .wb],
          9, "\\bto-?do\\s+(list|items?)\\b"),
        (cat [.wb, lit "task", opt (lit "s"), ws1, lit "to", ws1,
          alts [lit "complete", lit "do"], .wb],
          8, "\\btasks?\\s+to\\s+(complete|do)\\b"),
        (cat [.wb, lit "what", ws1, alts [lit "needs", lit "has"], ws1, lit "to",
          ws1, lit "be", ws1, lit "done", .wb],
          7, "\\bwhat\\s+(needs|has)\\s+to\\s+be\\s+done\\b") ]),
    (.executive_summary,
      [ (cat [.wb, lit "executive", ws1, lit "summar",
          alts [lit "y", lit "ize", lit "ise"], .wb],
          10, "\\bexecutive\\s+summar(y|ize|ise)\\b"),
        (cat [.wb, lit "briefing", .wb], 8, "\\bbriefing\\b"),
        (cat [.wb, lit "high", opt (.cls (fun c => c = '-' || c = ' ')), lit "level",
          ws1, alts [lit "overview", lit "summary"], .wb],
          8, "\\bhigh[- ]?level\\s+(overview|summary)\\b"),
        (cat [.wb, lit "board", ws1, alts [lit "summary", lit "briefing"], .wb],
          9, "\\bboard\\s+(summary|briefing)\\b") ]),
    (.talking_points,
      [ (cat [.wb, lit "talking", ws1, lit "point", opt (lit "s"), .wb],
          10, "\\btalking\\s+points?\\b"),
        (cat [.wb, lit "key", ws1,
          alts [cat [lit "message", opt (lit "s")], cat [lit "point", opt (lit "s")]], .wb],
          8, "\\bkey\\s+(messages?|points?)\\b"),
        (cat [.wb, lit "prepare", ws1, opt (cat [lit "me", ws1]), lit "for", ws1,
          opt (cat [lit "a", ws1]), alts [lit "meeting", lit "call", lit "presentation"], .wb],
          8, "\\bprepare\\s+(me\\s+)?for\\s+(a\\s+)?(meeting|call|presentation)\\b"),
        (cat [.wb, lit "what", ws1, lit "should", ws1, lit "i", ws1, lit "say", .wb],
          7, "\\bwhat\\s+should\\s+I\\s+say\\b") ]),
    (.compare_approaches,
      [ (cat [.wb, lit "compare", .wb, dotStar, .wb,
          alts [cat [lit "approach", opt (lit "es")], cat [lit "option", opt (lit "s")],
            cat [lit "alternative", opt (lit "s")]], .wb],
          10, "\\bcompare\\b.*\\b(approaches?|options?|alternatives?)\\b"),
        (cat [.wb,
          alts [cat [lit "pro", opt (lit "s"), ws1, lit "and", ws1, lit "con", opt (lit "s")],
            cat [lit "advantage", opt (lit "s"), ws1, lit "and", ws1,
              lit "disadvantage", opt (lit "s")]], .wb],
          9, "\\b(pros?\\s+and\\s+cons?|advantages?\\s+and\\s+disadvantages?)\\b"),
        (cat [.wb, lit "which", ws1, alts [lit "is", lit "option", lit "approach"],
          ws1, alts [lit "better", lit "best"], .wb],
          8, "\\bwhich\\s+(is|option|approach)\\s+(better|best)\\b"),
        (cat [.wb, lit "difference", ws1, lit "between", .wb],
          7, "\\bdifference\\s+between\\b") ]),
    (.research_topic,
      [ (cat [.wb, lit "research", .wb, dotStar, .wb, lit "topic", .wb],
          10, "\\bresearch\\b.*\\btopic\\b"),
        (cat [.wb, lit "what", ws1,
          alts [cat [lit "do", ws1, lit "we"], cat [lit "does", ws1, lit "the"]],
          ws1, lit "know", ws1, lit "about", .wb],
          8, "\\bwhat\\s+(do\\s+we|does\\s+the)\\s+know\\s+about\\b"),
        (cat [.wb, lit "find", ws1,
          alts [lit "information", cat [lit "detail", opt (lit "s")]], ws1,
          alts [lit "on", lit "about"], .wb],
          8, "\\bfind\\s+(information|details?)\\s+(on|about)\\b"),
        (cat [.wb, lit "look", ws1, lit "up", .wb], 6, "\\blook\\s+up\\b") ]),
    (.question_answer,
      [ (cat [.bol, .star wsp,
          alts [lit "what", lit "who", lit "when", lit "where", lit "why", lit "how"], .wb],
          3, "^\\s*(what|who|when|where|why|how)\\b"),
        (cat [lit "?", .eol], 2, "\\?$") ]) ]

/-- Confidence thresholds (the Python floats 0.6 and 0.4). -/
def RULE_CONFIDENCE_THRESHOLD : ℚ := 6/10

def LLM_FALLBACK_THRESHOLD : ℚ := 4/10

/-- `IntentDetector._detect_with_rules`: per task, the score is the maximum
weight among the task's matched patterns; tasks with no match are skipped;
the winner is the first task (in table order) with the highest score —
Python's `max` keeps the earliest maximal key.  With no match at all, the
general question-answering fallback at confidence 0.3. -/
def _detect_with_rules (query : String) : IntentMatch :=
  let t := (pyLower query).data
  let scores := INTENT_PATTERNS.filterMap (fun tp =>
    let matched := tp.2.filter (fun pr => reSearch pr.1 t)
    if matched.isEmpty then none
    else some (tp.1, (matched.map (fun pr => pr.2.1)).foldl max 0,
      matched.map (fun pr => pr.2.2)))
  match scores with
  | [] => ⟨.question_answer, 3/10, [], "rule"⟩
  | s₀ :: rest =>
      let best := rest.foldl (fun acc s => if s.2.1 > acc.2.1 then s else acc) s₀
      ⟨best.1, (best.2.1 : ℚ) / 10, best.2.2, "rule"⟩

/-- `IntentDetector.detect`.  `feature_enabled` models
`settings.feature_intent_detection_enabled`; `llmOutcome` is `none` when no
LLM service is configured, and otherwise carries the outcome of
`_detect_with_llm` on this query (`Except.error` models the generation or
parse raising — detect silently keeps the rule result). -/
def detect (feature_enabled use_llm_fallback : Bool)
    (llmOutcome : Option (Except Unit IntentMatch)) (query : String) : IntentMatch :=
  if !feature_enabled then ⟨.question_answer, 1, [], "disabled"⟩ else
  let rule_result := _detect_with_rules query
  if rule_result.confidence ≥ RULE_CONFIDENCE_THRESHOLD then rule_result
  else if use_llm_fallback && llmOutcome.isSome
      && decide (rule_result.confidence < LLM_FALLBACK_THRESHOLD) then
    match llmOutcome with
    | some (.ok llm_result) =>
        if llm_result.confidence > rule_result.confidence then llm_result else rule_result
    | some (.error _) => rule_result
    | none => rule_result
  else rule_result

/-- C1 (code bug): evaluating the rule classifier at the failing input.  For
the query "What are the key risks for this project?" none of the
RISK_ANALYSIS patterns matches (in particular `\bwhat\s+are\s+the\s+risks?\b`
is broken by the word "key"), so `_detect_with_rules` returns the
question-answering fallback with confidence 0.3 via the rule method — while
the spec and the repository's own test
(`tests/unit/test_intent.py::test_rule_based_detection`) require the
risk-analysis category with confidence ≥ 0.6. -/
theorem C1_rule_classification_failing_input :
    (_detect_with_rules "What are the key risks for this project?").task_type
        = TaskType.question_answer
    ∧ (_detect_with_rules "What are the key risks for this project?").method = "rule"
    ∧ (_detect_with_rules "What are the key risks for this project?").confidence = 3/10
    ∧ (_detect_with_rules "What are the key risks for this project?").task_type
        ≠ TaskType.risk_analysis
    ∧ ¬ ((_detect_with_rules "What are the key risks for this project?").confidence
          ≥ RULE_CONFIDENCE_THRESHOLD) := by
  have h : _detect_with_rules "What are the key risks for this project?"
      = ⟨TaskType.question_answer, ((3 : Nat) : ℚ)/10,
          ["^\\s*(what|who|when|where|why|how)\\b", "\\?$"], "rule"⟩ := by rfl
  rw [h]
  refine ⟨rfl, rfl, by norm_num, by decide, ?_⟩
  rw [RULE_CONFIDENCE_THRESHOLD]
  norm_num

/-- C9: the escalation policy of `IntentDetector.detect`: (1) rule
confidence at or above the accept threshold 0.6 returns the rule result
immediately; (2) rule confidence at or above the escalate threshold 0.4
returns the rule result whatever the classifier would do (it is not
consulted); (3) without a configured classifier, or with `use_llm_fallback`
off, the rule result is returned; (4) below 0.4 with a classifier, the
model result is adopted only if its confidence strictly exceeds the rule
confidence, and any classifier failure or parse error keeps the rule
result. -/
theorem C9_detect_escalation_policy (query : String) :
    ((_detect_with_rules query).confidence ≥ RULE_CONFIDENCE_THRESHOLD →
      ∀ (u : Bool) (o : Option (Except Unit IntentMatch)),
        detect true u o query = _detect_with_rules query)
    ∧ ((_detect_with_rules query).confidence ≥ LLM_FALLBACK_THRESHOLD →
      ∀ (u : Bool) (o : Option (Except Unit IntentMatch)),
        detect true u o query = _detect_with_rules query)
    ∧ (∀ (u : Bool), detect true u none query = _detect_with_rules query)
    ∧ (∀ (o : Option (Except Unit IntentMatch)),
        detect true false o query = _detect_with_rules query)
    ∧ ((_detect_with_rules query).confidence < LLM_FALLBACK_THRESHOLD →
        (∀ m : IntentMatch, detect true true (some (.ok m)) query
          = (if m.confidence > (_detect_with_rules query).confidence
              then m else _detect_with_rules query))
        ∧ detect true true (some (.error ())) query = _detect_with_rules query) := by
  refine ⟨?_, ?_, ?_, ?_, ?_⟩
  · intro hge u o
    unfold detect
    rw [if_neg (by simp)]
    dsimp only
    rw [if_pos hge]
  · intro hge u o
    by_cases hacc : (_detect_with_rules query).confidence ≥ RULE_CONFIDENCE_THRESHOLD
    · unfold detect
      rw [if_neg (by simp)]
      dsimp only
      rw [if_pos hacc]
    · unfold detect
      rw [if_neg (by simp)]
      dsimp only
      rw [if_neg hacc]
      rw [if_neg ?hcond]
      case hcond =>
        simp only [Bool.and_eq_true, decide_eq_true_eq]
        rintro ⟨-, hlt⟩
        exact absurd hlt (not_lt.mpr hge)
  · intro u
    by_cases hacc : (_detect_with_rules query).confidence ≥ RULE_CONFIDENCE_THRESHOLD
    · unfold detect
      rw [if_neg (by simp)]
      dsimp only
      rw [if_pos hacc]
    · unfold detect
      rw [if_neg (by simp)]
      dsimp only
      rw [if_neg hacc]
      rw [if_neg (by simp)]
  · intro o
    by_cases hacc : (_detect_with_rules query).confidence ≥ RULE_CONFIDENCE_THRESHOLD
    · unfold detect
      rw [if_neg (by simp)]
      dsimp only
      rw [if_pos hacc]
    · unfold detect
      rw [if_neg (by simp)]
      dsimp only
      rw [if_neg hacc]
      rw [if_neg (by simp)]
  · intro hlt
    have hacc : ¬ (_detect_with_rules query).confidence ≥ RULE_CONFIDENCE_THRESHOLD := by
      intro hge
      rw [RULE_CONFIDENCE_THRESHOLD] at hge
      rw [LLM_FALLBACK_THRESHOLD] at hlt
      have h64 : (6 : ℚ)/10 < 4/10 := lt_of_le_of_lt hge hlt
      norm_num at h64
    constructor
    · intro m
      unfold detect
      rw [if_neg (by simp)]
      dsimp only
      rw [if_neg hacc]
      rw [if_pos (by simp [hlt])]
    · unfold detect
      rw [if_neg (by simp)]
      dsimp only
      rw [if_neg hacc]
      rw [if_pos (by simp [hlt])]

/-- Witness for C9 at a concrete high-confidence query. -/
theorem C9_witness :
    ((_detect_with_rules "Perform a risk analysis").confidence ≥ RULE_CONFIDENCE_THRESHOLD)
    ∧ (∀ (u : Bool) (o : Option (Except Unit IntentMatch)),
        detect true u o "Perform a risk analysis"
          = _detect_with_rules "Perform a risk analysis") := by
  have h : _detect_with_rules "Perform a risk analysis"
      = ⟨TaskType.risk_analysis, ((10 : Nat) : ℚ)/10,
          ["\\brisk\\s+(analysis|assessment|evaluation)\\b"], "rule"⟩ := by rfl
  have hconf : (_detect_with_rules "Perform a risk analysis").confidence
      ≥ RULE_CONFIDENCE_THRESHOLD := by
    rw [h, RULE_CONFIDENCE_THRESHOLD]
    norm_num
  exact ⟨hconf, (C9_detect_escalation_policy "Perform a risk analysis").1 hconf⟩

/-! ## app/ingestion/chunker.py

`count_tokens` wraps the external tiktoken tokenizer when available and the
`len(text) // 4` approximation otherwise; it appears as the explicit
function parameter `tc`. -/

structure ChunkingConfig where
  target_size : Nat := 512
  min_size : Nat := 100
  max_size : Nat := 1024
  overlap : Nat := 64
  respect_sentence_boundaries : Bool := true
  respect_paragraph_boundaries : Bool := true
  preserve_headings : Bool := true
  deriving Repr

structure TextSegment where
  text : String
  segment_type : String := "paragraph"
  heading_level : Option Nat := none
  start_char : Nat := 0
  end_char : Nat := 0
  deriving Repr

/-- `DocumentChunk`, restricted to the fields `_create_chunk` computes (the
fresh UUID `chunk_id`, the `document_id` and the metadata record are passed
through unchanged and are omitted). -/
structure DocumentChunk where
  content : String
  chunk_index : Nat
  start_char : Nat
  end_char : Nat
  section_title : Option String
  heading_hierarchy : List String
  token_count : Nat
  deriving Repr

def isSentEnd (c : Char) : Bool := c = '.' || c = '!' || c = '?'

/-- The end position of the leftmost match of `[.!?]\s+` (the greedy `\s+`
consumes the maximal whitespace run after the sentence terminator), or
`none`. -/
def sentMatchEnd : List Char → Option Nat
  | [] => none
  | c :: rest =>
      if isSentEnd c && (match rest.head? with | some c2 => pyIsSpace c2 | none => false) then
        some (1 + (rest.takeWhile pyIsSpace).length)
      else
        match sentMatchEnd rest with
        | some e => some (e + 1)
        | none => none

/-- `TextChunker._get_overlap_text`: the last `overlap * 4` characters of
the buffer, advanced past the next sentence terminator when
sentence-boundary trimming is enabled. -/
def _get_overlap_text (config : ChunkingConfig) (text : String) : String :=
  if text.data.isEmpty || config.overlap == 0 then "" else
  let overlap_chars := config.overlap * 4
  if text.data.length ≤ overlap_chars then text else
  let overlap_text := text.data.drop (text.data.length - overlap_chars)
  if config.respect_sentence_boundaries then
    match sentMatchEnd overlap_text with
    | some e => String.mk (overlap_text.drop e)
    | none => String.mk overlap_text
  else String.mk overlap_text

/-- `re.split(r"(?<=[.!?])\s+", text)`: a separator is a maximal whitespace
run preceded by a sentence terminator.  Fuel-driven; `text.length` fuel is
enough since every step consumes at least one character. -/
def splitSentencesAux : Nat → List Char → List Char → List (List Char)
  | 0, l, acc => [acc.reverse ++ l]
  | _ + 1, [], acc => [acc.reverse]
  | fuel + 1, c :: rest, acc =>
      if pyIsSpace c && (match acc.head? with | some p => isSentEnd p | none => false) then
        acc.reverse :: splitSentencesAux fuel (rest.dropWhile pyIsSpace) []
      else
        splitSentencesAux fuel rest (c :: acc)

/-- `TextChunker._split_large_segment`. -/
def _split_large_segment (config : ChunkingConfig) (tc : String → Nat)
    (segment : TextSegment) : List String :=
  let text := segment.text
  let target_tokens : Int := (config.target_size : Int) - (config.overlap : Int)
  let sentences := (splitSentencesAux text.data.length text.data []).map String.mk
  let step := fun (acc : List String × String) (sentence : String) =>
    if ((tc (acc.2 ++ " " ++ sentence) : Int)) > target_tokens then
      if acc.2 ≠ "" then (acc.1 ++ [acc.2], sentence) else (acc.1, sentence)
    else
      if acc.2 ≠ "" then (acc.1, acc.2 ++ " " ++ sentence) else (acc.1, sentence)
  let fin := sentences.foldl step ([], "")
  if fin.2 ≠ "" then fin.1 ++ [fin.2] else fin.1

/-- `TextChunker._clean_heading`: drop the leading `#+\s*` markers and a
trailing `\n[=-]+` underline, then strip.  (Heading blocks are stripped, so
the `$` anchor is plain end-of-string here.) -/
def _clean_heading (text : String) : String :=
  let l := text.data
  let l1 := if (match l.head? with | some c => c == '#' | none => false) then
      (l.dropWhile (fun c => c = '#')).dropWhile pyIsSpace
    else l
  let r := l1.reverse
  let run := r.takeWhile (fun c => c = '=' || c = '-')
  let l2 := if !run.isEmpty && (match (r.drop run.length).head? with | some c => c == '\n' | none => false)
    then (r.drop (run.length + 1)).reverse
    else l1
  String.mk (pyStripL l2)

/-- `TextChunker._create_chunk`, restricted to the computed fields: the
content is the stripped text, the token count that of the unstripped
text. -/
def _create_chunk (tc : String → Nat) (text : String) (chunk_index : Nat)
    (heading_hierarchy : List String) (section_title : Option String)
    (start_char end_char : Nat) : DocumentChunk :=
  ⟨pyStrip text, chunk_index, start_char, end_char, section_title, heading_hierarchy, tc text⟩

/-- The loop state of `_create_chunks`. -/
structure ChunkState where
  chunks : List DocumentChunk
  current_chunk_text : String
  current_chunk_segments : List TextSegment
  chunk_index : Nat
  heading_hierarchy : List String
  section_title : Option String

/-- One iteration of the `for segment in segments` loop of
`_create_chunks`. -/
def processSegment (config : ChunkingConfig) (tc : String → Nat)
    (st : ChunkState) (segment : TextSegment) : ChunkState :=
  let hs : List String × Option String :=
    if segment.segment_type == "heading"
        && (match segment.heading_level with | some lv => lv != 0 | none => false) then
      match segment.heading_level with
      | some level =>
          let heading_text := _clean_heading segment.text
          (st.heading_hierarchy.take (level - 1) ++ [heading_text], some heading_text)
      | none => (st.heading_hierarchy, st.section_title)
    else (st.heading_hierarchy, st.section_title)
  let segment_tokens := tc segment.text
  let current_tokens := tc st.current_chunk_text
  let st1 : ChunkState :=
    if current_tokens + segment_tokens > config.target_size then
      let base :=
        if pyStrip st.current_chunk_text ≠ "" then
          (st.chunks ++ [_create_chunk tc st.current_chunk_text st.chunk_index hs.1 hs.2
            (match st.current_chunk_segments.head? with | some s => s.start_char | none => 0)
            (match st.current_chunk_segments.getLast? with | some s => s.end_char | none => 0)],
           st.chunk_index + 1)
        else (st.chunks, st.chunk_index)
      ⟨base.1, _get_overlap_text config st.current_chunk_text, [], base.2, hs.1, hs.2⟩
    else ⟨st.chunks, st.current_chunk_text, st.current_chunk_segments, st.chunk_index, hs.1, hs.2⟩
  if segment_tokens > config.max_size then
    (_split_large_segment config tc segment).foldl (fun st2 sub =>
      let cur := (if pyStrip st2.current_chunk_text ≠ "" then st2.current_chunk_text ++ "\n\n"
        else st2.current_chunk_text) ++ sub
      if tc cur ≥ config.target_size then
        ⟨st2.chunks ++ [_create_chunk tc cur st2.chunk_index hs.1 hs.2
            segment.start_char segment.end_char],
          _get_overlap_text config cur, [], st2.chunk_index + 1, hs.1, hs.2⟩
      else ⟨st2.chunks, cur, st2.current_chunk_segments ++ [segment], st2.chunk_index, hs.1, hs.2⟩)
      st1
  else
    ⟨st1.chunks,
      (if pyStrip st1.current_chunk_text ≠ "" then st1.current_chunk_text ++ "\n\n"
        else st1.current_chunk_text) ++ segment.text,
      st1.current_chunk_segments ++ [segment], st1.chunk_index, hs.1, hs.2⟩

/-- `TextChunker._create_chunks`. -/
def _create_chunks (config : ChunkingConfig) (tc : String → Nat)
    (segments : List TextSegment) : List DocumentChunk :=
  let stF := segments.foldl (processSegment config tc) ⟨[], "", [], 0, [], none⟩
  if pyStrip stF.current_chunk_text ≠ "" ∧ tc stF.current_chunk_text ≥ config.min_size then
    stF.chunks ++ [_create_chunk tc stF.current_chunk_text stF.chunk_index
      stF.heading_hierarchy stF.section_title
      (match stF.current_chunk_segments.head? with | some s => s.start_char | none => 0)
      (match stF.current_chunk_segments.getLast? with | some s => s.end_char | none => 0)]
  else stF.chunks

/-- `re.split(r"\n\s*\n", text)`: a separator starts at a newline whose
following whitespace run contains another newline, and (greedy `\s*` with
backtracking into the final `\n`) extends through the last newline of that
run. -/
def pySplitBlankAux : Nat → List Char → List Char → List (List Char)
  | 0, l, acc => [acc.reverse ++ l]
  | _ + 1, [], acc => [acc.reverse]
  | fuel + 1, c :: rest, acc =>
      if c == '\n' then
        let w := rest.takeWhile pyIsSpace
        if w.contains '\n' then
          let m := (w.reverse.takeWhile (fun c2 => !(c2 == '\n'))).length
          acc.reverse :: pySplitBlankAux fuel (rest.drop (w.length - m)) []
        else pySplitBlankAux fuel rest (c :: acc)
      else pySplitBlankAux fuel rest (c :: acc)

/-- Python `str.isupper` over the ASCII fragment: at least one letter and no
lowercase letter. -/
def pyIsUpper (l : List Char) : Bool :=
  l.any (fun c => c.isAlpha) && l.all (fun c => !c.isLower)

/-- `TextChunker._classify_segment`.  The `^(#\x7b1,6\x7d)\s+` match
succeeds exactly when the leading run of 1–6 `#`s is followed by a
whitespace character (a run of 7+ leaves `#` at every backtrack point). -/
def _classify_segment (text : String) : String × Option Nat :=
  let lines := text.data.splitOn '\n'
  let first_line := pyStripL (lines.head?.getD [])
  let h := (first_line.takeWhile (fun c => c == '#')).length
  if decide (1 ≤ h) && decide (h ≤ 6)
      && (match (first_line.drop h).head? with | some c => pyIsSpace c | none => false) then
    ("heading", some h)
  else
    let line1 := pyStripL ((lines.drop 1).head?.getD [])
    if decide (2 ≤ lines.length) && !line1.isEmpty && line1.all (fun c => c == '=') then
      ("heading", some 1)
    else if decide (2 ≤ lines.length) && !line1.isEmpty && line1.all (fun c => c == '-') then
      ("heading", some 2)
    else if pyIsUpper first_line && decide (first_line.length < 100) then
      ("heading", some 2)
    else if (match first_line with
        | c :: c2 :: _ => (c == '-' || c == '*' || c == '+') && pyIsSpace c2
        | _ => false) then
      ("list", none)
    else
      let d := first_line.takeWhile Char.isDigit
      if !d.isEmpty && (match first_line.drop d.length with
          | p :: s :: _ => (p == '.' || p == ')') && pyIsSpace s
          | _ => false) then
        ("list", none)
      else if ("```".data.isPrefixOf text.data) || ("    ".data.isPrefixOf text.data) then
        ("code", none)
      else ("paragraph", none)

def findSubAux (needle : List Char) : List Char → Nat → Option Nat
  | [], i => if needle.isEmpty then some i else none
  | c :: t, i => if needle.isPrefixOf (c :: t) then some i else findSubAux needle t (i + 1)

/-- `hay.find(needle, start)` (as an `Option` instead of `-1`). -/
def pyFindFrom (hay needle : List Char) (start : Nat) : Option Nat :=
  findSubAux needle (hay.drop start) start

/-- The `for block in blocks` loop of `_segment_text`: skip empty stripped
blocks, classify, locate each block in the original text. -/
def segLoop (text : List Char) : List (List Char) → Nat → List TextSegment
  | [], _ => []
  | b :: bs, pos =>
      if b.isEmpty then segLoop text bs pos
      else
        let cls := _classify_segment (String.mk b)
        let start_pos := (pyFindFrom text b pos).getD pos
        let end_pos := start_pos + b.length
        ⟨String.mk b, cls.1, cls.2, start_pos, end_pos⟩ :: segLoop text bs end_pos

/-- `TextChunker._segment_text`. -/
def _segment_text (text : String) : List TextSegment :=
  segLoop text.data ((pySplitBlankAux text.data.length text.data []).map pyStripL) 0

/-- `TextChunker.chunk_document` (the chunk list; logging and ids
omitted). -/
def chunk_document (config : ChunkingConfig) (tc : String → Nat)
    (text : String) : List DocumentChunk :=
  if pyStrip text = "" then []
  else _create_chunks config tc (_segment_text text)

theorem pyStripL_eq_nil_iff (l : List Char) :
    pyStripL l = [] ↔ ∀ c ∈ l, pyIsSpace c = true := by
  unfold pyStripL pyRStripL pyLStripL
  rw [List.reverse_eq_nil_iff, List.dropWhile_eq_nil_iff]
  constructor
  · intro h c hcl
    have hsplit : l.takeWhile pyIsSpace ++ l.dropWhile pyIsSpace = l :=
      List.takeWhile_append_dropWhile pyIsSpace l
    rw [← hsplit] at hcl
    rcases List.mem_append.mp hcl with h1 | h2
    · exact List.mem_takeWhile_imp h1
    · exact h c (List.mem_reverse.mpr h2)
  · intro h c hcr
    exact h c ((List.dropWhile_sublist pyIsSpace).subset (List.mem_reverse.mp hcr))

theorem pyStripL_ne_nil (l : List Char) (c : Char) (hc : c ∈ l)
    (hw : pyIsSpace c = false) : pyStripL l ≠ [] := by
  intro h
  have := (pyStripL_eq_nil_iff l).mp h c hc
  rw [hw] at this
  exact Bool.false_ne_true this

theorem dropWhile_fixed_head (p : Char → Bool) (l : List Char)
    (h : l.dropWhile p = l) (hne : l ≠ []) :
    ∃ c t, l = c :: t ∧ p c = false := by
  cases l with
  | nil => exact absurd rfl hne
  | cons c t =>
      refine ⟨c, t, rfl, ?_⟩
      by_cases hp : p c = true
      · rw [List.dropWhile_cons, if_pos hp] at h
        have hlen := congrArg List.length h
        have hle : (t.dropWhile p).length ≤ t.length := (List.dropWhile_sublist p).length_le
        simp only [List.length_cons] at hlen
        omega
      · exact Bool.eq_false_iff.mpr hp

theorem strip_fixed_parts (l : List Char) (h : pyStripL l = l) :
    pyLStripL l = l ∧ pyRStripL l = l := by
  have h1 : (pyLStripL l).length ≤ l.length := (List.dropWhile_sublist pyIsSpace).length_le
  have h2 : (pyStripL l).length ≤ (pyLStripL l).length := by
    unfold pyStripL pyRStripL
    rw [List.length_reverse]
    calc ((pyLStripL l).reverse.dropWhile pyIsSpace).length
        ≤ (pyLStripL l).reverse.length := (List.dropWhile_sublist pyIsSpace).length_le
      _ = (pyLStripL l).length := List.length_reverse _
  rw [h] at h2
  have hlen : (pyLStripL l).length = l.length := Nat.le_antisymm h1 h2
  have hLfix : pyLStripL l = l := (List.dropWhile_suffix pyIsSpace).eq_of_length hlen
  refine ⟨hLfix, ?_⟩
  have h3 := h
  unfold pyStripL at h3
  rwa [hLfix] at h3

theorem rstrip_fixed_reverse (l : List Char) (h : pyRStripL l = l) :
    l.reverse.dropWhile pyIsSpace = l.reverse := by
  unfold pyRStripL at h
  have h2 := congrArg List.reverse h
  rwa [List.reverse_reverse] at h2

theorem rstrip_fixed_last (l : List Char) (hne : l ≠ []) (h : pyRStripL l = l) :
    ∃ c, l.getLast? = some c ∧ pyIsSpace c = false := by
  have hr := rstrip_fixed_reverse l h
  have hrne : l.reverse ≠ [] := by simpa using hne
  obtain ⟨c, t, hct, hc⟩ := dropWhile_fixed_head pyIsSpace l.reverse hr hrne
  refine ⟨c, ?_, hc⟩
  rw [← List.head?_reverse, hct]
  rfl

theorem rstrip_append (a b : List Char) (hb : pyRStripL b = b) (hbne : b ≠ []) :
    pyRStripL (a ++ b) = a ++ b := by
  have hr := rstrip_fixed_reverse b hb
  have hbre : b.reverse ≠ [] := by simpa using hbne
  obtain ⟨c, t, hct, hc⟩ := dropWhile_fixed_head pyIsSpace b.reverse hr hbre
  unfold pyRStripL
  rw [List.reverse_append, hct, List.cons_append, List.dropWhile_cons,
    if_neg (by simp [hc]), ← List.cons_append, ← hct, ← List.reverse_append,
    List.reverse_reverse]

theorem getLast?_drop_of_lt (l : List Char) (n : Nat) (h : n < l.length) :
    (l.drop n).getLast? = l.getLast? := by
  have hsplit : l.take n ++ l.drop n = l := List.take_append_drop n l
  cases hd : (l.drop n).getLast? with
  | none =>
      exfalso
      have h0 := List.getLast?_eq_none_iff.mp hd
      have h1 : l.length - n = 0 := by rw [← List.length_drop, h0]; rfl
      omega
  | some x =>
      conv_rhs => rw [← hsplit]
      rw [List.getLast?_append, hd]
      rfl

theorem string_data_ne (s : String) (h : s ≠ "") : s.data ≠ [] := by
  intro hd
  apply h
  have : s = String.mk s.data := rfl
  rw [this, hd]

theorem string_mk_ne (l : List Char) (h : l ≠ []) : String.mk l ≠ "" := by
  intro hm
  exact h (congrArg String.data hm)

theorem pyStripL_append_blank (ov s2 : List Char) (hov : pyStripL ov ≠ [])
    (h2f : pyRStripL s2 = s2) (h2ne : s2 ≠ []) :
    pyStripL (ov ++ '\n' :: '\n' :: s2) = pyLStripL ov ++ '\n' :: '\n' :: s2 := by
  have hLne : pyLStripL ov ≠ [] := by
    intro hL
    apply hov
    unfold pyStripL
    rw [hL]
    rfl
  unfold pyStripL
  have h1 : pyLStripL (ov ++ '\n' :: '\n' :: s2) = pyLStripL ov ++ '\n' :: '\n' :: s2 := by
    unfold pyLStripL
    have hne2 : ¬((List.dropWhile pyIsSpace ov).isEmpty = true) :=
      fun hEmp => hLne (List.isEmpty_iff.mp hEmp)
    rw [List.dropWhile_append, if_neg hne2]
  rw [h1]
  rw [show pyLStripL ov ++ '\n' :: '\n' :: s2 = (pyLStripL ov ++ ['\n', '\n']) ++ s2 by
    rw [List.append_assoc]; rfl]
  rw [rstrip_append _ _ h2f h2ne, List.append_assoc]

theorem sentMatchEnd_lt (cl : Char) (hcl : pyIsSpace cl = false) :
    ∀ (l : List Char) (e : Nat), l.getLast? = some cl → sentMatchEnd l = some e →
      e < l.length := by
  intro l
  induction l with
  | nil => intro e hl h; simp [sentMatchEnd] at h
  | cons c rest ih =>
      intro e hl h
      rw [sentMatchEnd] at h
      by_cases hcond : (isSentEnd c
          && match rest.head? with | some c2 => pyIsSpace c2 | none => false) = true
      · rw [if_pos hcond] at h
        injection h with he
        have hrne : rest ≠ [] := by
          rcases Bool.and_eq_true _ _ ▸ hcond with ⟨_, h2⟩
          intro hr
          rw [hr] at h2
          simp at h2
        have hlast : rest.getLast? = some cl := by
          cases rest with
          | nil => exact absurd rfl hrne
          | cons a t => rw [← List.getLast?_cons_cons]; exact hl
        have hmem : cl ∈ rest := List.mem_of_mem_getLast? hlast
        have htk : (rest.takeWhile pyIsSpace).length < rest.length := by
          rcases Nat.lt_or_ge (rest.takeWhile pyIsSpace).length rest.length with hlt | hge
          · exact hlt
          · exfalso
            have hpre : rest.takeWhile pyIsSpace <+: rest := List.takeWhile_prefix pyIsSpace
            have hlen : (rest.takeWhile pyIsSpace).length = rest.length :=
              Nat.le_antisymm hpre.length_le hge
            have heq := hpre.eq_of_length hlen
            have hws := List.takeWhile_eq_self_iff.mp heq cl hmem
            rw [hcl] at hws
            exact Bool.false_ne_true hws
        simp only [List.length_cons]
        omega
      · rw [if_neg hcond] at h
        cases hrec : sentMatchEnd rest with
        | none => rw [hrec] at h; simp at h
        | some e2 =>
            rw [hrec] at h
            injection h with he
            have hrne : rest ≠ [] := by
              intro hr
              rw [hr] at hrec
              simp [sentMatchEnd] at hrec
            have hlast : rest.getLast? = some cl := by
              cases rest with
              | nil => exact absurd rfl hrne
              | cons a t => rw [← List.getLast?_cons_cons]; exact hl
            have hlt := ih e2 hlast hrec
            simp only [List.length_cons]
            omega

theorem overlap_props (config : ChunkingConfig) (t : String) (hne : t.data ≠ [])
    (hfix : pyStripL t.data = t.data) (hov : config.overlap ≠ 0) :
    (_get_overlap_text config t).data <:+ t.data ∧
    pyStripL (_get_overlap_text config t).data ≠ [] := by
  obtain ⟨hL, hR⟩ := strip_fixed_parts t.data hfix
  obtain ⟨cl, hlast, hclw⟩ := rstrip_fixed_last t.data hne hR
  have h1 : t.data.isEmpty = false := by
    cases he : t.data.isEmpty
    · rfl
    · exact absurd (List.isEmpty_iff.mp he) hne
  have h2 : (config.overlap == 0) = false := beq_eq_false_iff_ne.mpr hov
  unfold _get_overlap_text
  dsimp only
  rw [if_neg (by rw [h1, h2]; simp)]
  by_cases hlen : t.data.length ≤ config.overlap * 4
  · rw [if_pos hlen]
    refine ⟨List.suffix_refl _, ?_⟩
    rw [hfix]
    exact hne
  · rw [if_neg hlen]
    have hpos : 0 < t.data.length := List.length_pos.mpr hne
    have hlt : t.data.length - config.overlap * 4 < t.data.length := by omega
    have hlast0 : (t.data.drop (t.data.length - config.overlap * 4)).getLast? = some cl := by
      rw [getLast?_drop_of_lt _ _ hlt]
      exact hlast
    have hsuf0 : t.data.drop (t.data.length - config.overlap * 4) <:+ t.data :=
      List.drop_suffix _ _
    cases hrsb : config.respect_sentence_boundaries
    · rw [if_neg (by simp)]
      refine ⟨hsuf0, ?_⟩
      exact pyStripL_ne_nil _ cl (List.mem_of_mem_getLast? hlast0) hclw
    · rw [if_pos rfl]
      cases hsm : sentMatchEnd (t.data.drop (t.data.length - config.overlap * 4)) with
      | none =>
          simp only [hsm]
          refine ⟨hsuf0, ?_⟩
          exact pyStripL_ne_nil _ cl (List.mem_of_mem_getLast? hlast0) hclw
      | some e =>
          simp only [hsm]
          have he : e < (t.data.drop (t.data.length - config.overlap * 4)).length :=
            sentMatchEnd_lt cl hclw _ e hlast0 hsm
          have hlaste : ((t.data.drop (t.data.length - config.overlap * 4)).drop e).getLast?
              = some cl := by
            rw [getLast?_drop_of_lt _ _ he]
            exact hlast0
          refine ⟨(List.drop_suffix _ _).trans hsuf0, ?_⟩
          exact pyStripL_ne_nil _ cl (List.mem_of_mem_getLast? hlaste) hclw

theorem overlap_empty (config : ChunkingConfig) : _get_overlap_text config "" = "" := rfl

theorem processSegment_first (config : ChunkingConfig) (tc : String → Nat)
    (s : TextSegment) (hty : s.segment_type = "paragraph") (htc0 : tc "" = 0)
    (hmax : tc s.text ≤ config.max_size) :
    processSegment config tc ⟨[], "", [], 0, [], none⟩ s = ⟨[], s.text, [s], 0, [], none⟩ := by
  have hmaxn : ¬(tc s.text > config.max_size) := by omega
  have hpb : ("paragraph" == "heading") = false := rfl
  unfold processSegment
  rw [hty]
  dsimp only
  rw [if_neg hmaxn]
  rw [hpb, Bool.false_and]
  rw [if_neg (by simp : ¬(false = true))]
  dsimp only
  rw [htc0]
  by_cases hcase : 0 + tc s.text > config.target_size
  · rw [if_pos hcase]
    rw [if_neg (not_not_intro rfl : ¬(pyStrip "" ≠ ""))]
    dsimp only
    rw [overlap_empty]
    rw [if_neg (not_not_intro rfl : ¬(pyStrip "" ≠ ""))]
    rfl
  · rw [if_neg hcase]
    dsimp only
    rw [if_neg (not_not_intro rfl : ¬(pyStrip "" ≠ ""))]
    rfl

theorem processSegment_second (config : ChunkingConfig) (tc : String → Nat)
    (s1 s2 : TextSegment) (hty2 : s2.segment_type = "paragraph")
    (h1f : pyStrip s1.text = s1.text) (h1ne : s1.text ≠ "")
    (hcomb : config.target_size < tc s1.text + tc s2.text)
    (hmax2 : tc s2.text ≤ config.max_size) :
    processSegment config tc ⟨[], s1.text, [s1], 0, [], none⟩ s2 =
      ⟨[⟨s1.text, 0, s1.start_char, s1.end_char, none, [], tc s1.text⟩],
       (if pyStrip (_get_overlap_text config s1.text) ≠ ""
          then _get_overlap_text config s1.text ++ "\n\n"
          else _get_overlap_text config s1.text) ++ s2.text,
       [s2], 1, [], none⟩ := by
  have hmaxn : ¬(tc s2.text > config.max_size) := by omega
  have hpb : ("paragraph" == "heading") = false := rfl
  have hcomb2 : tc s1.text + tc s2.text > config.target_size := hcomb
  have hstrip1 : pyStrip s1.text ≠ "" := by rw [h1f]; exact h1ne
  unfold processSegment
  rw [hty2]
  dsimp only
  rw [if_neg hmaxn]
  rw [hpb, Bool.false_and]
  rw [if_neg (by simp : ¬(false = true))]
  dsimp only
  rw [if_pos hcomb2]
  rw [if_pos hstrip1]
  dsimp only
  unfold _create_chunk
  rw [h1f]
  rfl

/-- C7: Corrected form of the two-paragraph chunking claim.  For two
stripped, non-empty paragraph segments that individually fit `max_size`
but together exceed `target_size`, with a non-zero overlap and a final
buffer that passes the `min_size` gate, `_create_chunks` produces exactly
two chunks: the first is the first paragraph, and the second begins with a
non-empty overlap tail taken from the end of the first chunk (the last
`overlap * 4` characters, advanced past a sentence terminator when
sentence-boundary trimming is on, then left-stripped). -/
theorem C7_two_paragraph_overlap (config : ChunkingConfig) (tc : String → Nat)
    (s1 s2 : TextSegment)
    (h1t : s1.segment_type = "paragraph") (h2t : s2.segment_type = "paragraph")
    (h1f : pyStrip s1.text = s1.text) (h1ne : s1.text ≠ "")
    (h2f : pyStrip s2.text = s2.text) (h2ne : s2.text ≠ "")
    (htc0 : tc "" = 0)
    (hmax1 : tc s1.text ≤ config.max_size) (hmax2 : tc s2.text ≤ config.max_size)
    (hcomb : config.target_size < tc s1.text + tc s2.text)
    (hov : config.overlap ≠ 0)
    (hmin : config.min_size ≤ tc (_get_overlap_text config s1.text ++ "\n\n" ++ s2.text)) :
    ∃ c1 c2 tail,
      _create_chunks config tc [s1, s2] = [c1, c2] ∧
      c1.content = s1.text ∧ c1.chunk_index = 0 ∧ c2.chunk_index = 1 ∧
      tail = pyLStripL (_get_overlap_text config s1.text).data ∧
      tail ≠ [] ∧
      c2.content.data = tail ++ '\n' :: '\n' :: s2.text.data ∧
      tail <:+ c1.content.data := by
  have h1fd : pyStripL s1.text.data = s1.text.data := congrArg String.data h1f
  have h2fd : pyStripL s2.text.data = s2.text.data := congrArg String.data h2f
  have h1ned : s1.text.data ≠ [] := string_data_ne _ h1ne
  have h2ned : s2.text.data ≠ [] := string_data_ne _ h2ne
  obtain ⟨hsufov, hstripov⟩ := overlap_props config s1.text h1ned h1fd hov
  have hovne : pyStrip (_get_overlap_text config s1.text) ≠ "" :=
    string_mk_ne (pyStripL (_get_overlap_text config s1.text).data) hstripov
  obtain ⟨h2L, h2R⟩ := strip_fixed_parts s2.text.data h2fd
  have hst1 := processSegment_first config tc s1 h1t htc0 hmax1
  have hst2 := processSegment_second config tc s1 s2 h2t h1f h1ne hcomb hmax2
  have hcurdata : ((_get_overlap_text config s1.text ++ "\n\n") ++ s2.text).data
      = (_get_overlap_text config s1.text).data ++ '\n' :: '\n' :: s2.text.data := by
    rw [String.data_append, String.data_append, List.append_assoc]
    rfl
  have hstripcur : pyStrip ((_get_overlap_text config s1.text ++ "\n\n") ++ s2.text)
      = String.mk (pyLStripL (_get_overlap_text config s1.text).data
          ++ '\n' :: '\n' :: s2.text.data) := by
    unfold pyStrip
    rw [hcurdata]
    rw [pyStripL_append_blank (_get_overlap_text config s1.text).data s2.text.data
      hstripov h2R h2ned]
  have hfinne : pyStrip ((_get_overlap_text config s1.text ++ "\n\n") ++ s2.text) ≠ "" := by
    rw [hstripcur]
    apply string_mk_ne
    simp
  have hcc : _create_chunks config tc [s1, s2] =
      [⟨s1.text, 0, s1.start_char, s1.end_char, none, [], tc s1.text⟩,
       ⟨String.mk (pyLStripL (_get_overlap_text config s1.text).data
          ++ '\n' :: '\n' :: s2.text.data), 1, s2.start_char, s2.end_char, none, [],
        tc ((_get_overlap_text config s1.text ++ "\n\n") ++ s2.text)⟩] := by
    unfold _create_chunks
    rw [List.foldl_cons, List.foldl_cons, List.foldl_nil, hst1, hst2]
    dsimp only
    rw [if_pos hovne]
    rw [if_pos ⟨hfinne, hmin⟩]
    unfold _create_chunk
    rw [hstripcur]
    rfl
  have hLov : pyLStripL (_get_overlap_text config s1.text).data ≠ [] := by
    intro hL
    apply hstripov
    unfold pyStripL
    rw [hL]
    rfl
  refine ⟨_, _, pyLStripL (_get_overlap_text config s1.text).data, hcc, rfl, rfl, rfl,
    rfl, hLov, rfl, ?_⟩
  exact (List.dropWhile_suffix pyIsSpace).trans hsufov

/-- The approximate tokenizer `len(text) // 4` used by `count_tokens` when
tiktoken is unavailable. -/
def c7tc (s : String) : Nat := s.data.length / 4

/-- The repo's own unit-test chunking configuration
`ChunkingConfig(target_size=100, min_size=20, max_size=200, overlap=10)`. -/
def c7cfg : ChunkingConfig := ⟨100, 20, 200, 10, true, true, true⟩

def c7s1 : TextSegment := ⟨String.mk (List.replicate 396 'a'), "paragraph", none, 0, 396⟩

def c7s2 : TextSegment := ⟨String.mk (List.replicate 400 'b'), "paragraph", none, 398, 798⟩

def c7ctext : String :=
  String.mk (List.replicate 396 'a' ++ '\n' :: '\n' :: List.replicate 8 'b')

set_option maxRecDepth 10000

/-- C7: Counterexample to the claim as stated.  `c7ctext` consists of two
blank-line-separated paragraphs whose token counts (99 and 2) together
exceed `target_size = 100`, yet `chunk_document` returns a single chunk:
after the first chunk is emitted, the remaining buffer (overlap text plus
the second paragraph) counts only 12 tokens, below `min_size = 20`, and the
final `min_size` gate of `_create_chunks` silently discards it. -/
theorem C7_counterexample :
    (_segment_text c7ctext).map (fun s => s.segment_type) = ["paragraph", "paragraph"] ∧
    c7cfg.target_size < ((_segment_text c7ctext).map (fun s => c7tc s.text)).sum ∧
    (chunk_document c7cfg c7tc c7ctext).length = 1 := by
  decide

/-- C7: Witness for the corrected theorem: two paragraphs of 396 and 400
characters under the unit-test configuration produce exactly two chunks,
the second beginning with the 40-character overlap tail of the first. -/
theorem C7_witness :
    ∃ c1 c2 tail,
      _create_chunks c7cfg c7tc [c7s1, c7s2] = [c1, c2] ∧
      c1.content = c7s1.text ∧ c1.chunk_index = 0 ∧ c2.chunk_index = 1 ∧
      tail = pyLStripL (_get_overlap_text c7cfg c7s1.text).data ∧
      tail ≠ [] ∧
      c2.content.data = tail ++ '\n' :: '\n' :: c7s2.text.data ∧
      tail <:+ c1.content.data :=
  C7_two_paragraph_overlap c7cfg c7tc c7s1 c7s2 rfl rfl (by decide) (by decide)
    (by decide) (by decide) rfl (by decide) (by decide) (by decide) (by decide)
    (by decide)
